import Mathlib

/-!
Verification of the `NativeDeserializeDataTransform` scan-and-filter processor
(`src/query/storages/fuse/src/operations/read/native_data_source_deserializer.rs`).

The transform's state and its methods (`event`, `process`, `add_block`,
`finish_process*`, `check_default_values`, `bloom_runtime_filter`) are embedded
as executable Lean functions over explicit state.  External collaborators that
live outside the sampled sources (the page codec, `TopKSorter`,
`FilterExecutor` internals, `BlockReader` block building, the error type's
`add_message`) are modelled from the spec, as noted on each definition.
Decoded pages are lists of values; fallible code returns `Except String`.
Rust panics (`unwrap`, `unreachable!`, out-of-bounds) are modelled as errors,
or as `Option.none` for `event`.
-/

namespace NativeDeser

/-- A scalar value inside a decoded column.  `null` models `Scalar::Null`
(used for virtual columns whose source is absent). -/
inductive Value where
  | int (i : Int)
  | null
deriving DecidableEq, Repr

/-- One decoded page of one column (the `Box<dyn Array>` yielded per page). -/
abbrev Arr := List Value

/-- Lookup in an association list keyed by column index (model of `BTreeMap`
at the granularity the claims need). -/
def alookup {α : Type} : List (Nat × α) → Nat → Option α
  | [], _ => none
  | (k, v) :: rest, i => if k = i then some v else alookup rest i

/-- Insert/overwrite in an association list. -/
def ainsert {α : Type} : List (Nat × α) → Nat → α → List (Nat × α)
  | [], i, v => [(i, v)]
  | (k, w) :: rest, i, v =>
      if k = i then (i, v) :: rest else (k, w) :: ainsert rest i v

/-- Remove the first occurrence of a value from a list of column indices
(model of `position` + `remove` on `remain_columns`). -/
def removeFirstNat : List Nat → Nat → List Nat
  | [], _ => []
  | x :: xs, v => if x = v then xs else x :: removeFirstNat xs v

/-- Strict order on values; only integers are comparable. -/
def Value.lt : Value → Value → Bool
  | .int a, .int b => decide (a < b)
  | _, _ => false

/-- An immutable batch of columns.  Columns are keyed by their index in
`src_schema`; `nrows` is the common row count. -/
structure DataBlock where
  cols : List (Nat × List Value)
  nrows : Nat
deriving DecidableEq, Repr

/-- Modelled from the spec: `memory_size` of a block, an abstract byte count
(one unit per stored value). -/
def DataBlock.memorySize (b : DataBlock) : Nat :=
  b.cols.foldl (fun a c => a + c.2.length) 0

/-- Append one column to a block (`DataBlock::add_column`). -/
def DataBlock.addColumn (b : DataBlock) (c : Nat × List Value) : DataBlock :=
  { cols := b.cols ++ [c], nrows := b.nrows }

/-- Row accessor: the value of column `c` at row `i` (missing entries read as
`null`; the evaluator never consults columns absent from the built block). -/
def DataBlock.rowAt (b : DataBlock) (i : Nat) : Nat → Value := fun c =>
  match alookup b.cols c with
  | some vs => vs.getD i Value.null
  | none => Value.null

/-- The values of column `c` of a block, defaulting to a null column
(`get_by_offset(...).as_column()`). -/
def blockColumnD (b : DataBlock) (c : Nat) : List Value :=
  (alookup b.cols c).getD (List.replicate b.nrows Value.null)

/-- Modelled from the spec: projecting a block into the output schema
(`DataBlock::resort`); keeps exactly the requested columns. -/
def resort (b : DataBlock) (out : List Nat) : DataBlock :=
  { cols := out.filterMap (fun i => (alookup b.cols i).map (fun vs => (i, vs))),
    nrows := b.nrows }

/-- A pushed-down predicate: given a row (column index to value), evaluate to
a boolean or fail (modelling expression-evaluation errors). -/
abbrev Pred := (Nat → Value) → Except String Bool

/-- Evaluate a predicate on the listed rows of a block, propagating the first
evaluation error (model of `Evaluator::run` / `FilterExecutor::select`
evaluation pass). -/
def evalRows (p : Pred) (b : DataBlock) : List Nat → Except String (List Bool)
  | [] => .ok []
  | i :: is =>
    match p (b.rowAt i) with
    | .error e => .error e
    | .ok v =>
      match evalRows p b is with
      | .error e => .error e
      | .ok vs => .ok (v :: vs)

/-- Evaluate a predicate on every row of a block. -/
def evalPredOnBlock (p : Pred) (b : DataBlock) : Except String (List Bool) :=
  evalRows p b (List.range b.nrows)

/-- Row indices selected by a boolean bitmap. -/
def boolsToSel (bs : List Bool) : List Nat :=
  ((List.range bs.length).zip bs).filterMap (fun ib => if ib.2 then some ib.1 else none)

/-- Modelled from the spec: `FilterExecutor` — evaluates a predicate and keeps
a compacted selection of passing row indices (`mut_true_selection`). -/
structure FilterExec where
  pred : Pred
  true_selection : List Nat

/-- Compute a fresh selection from the predicate; returns the count of
selected rows (`FilterExecutor::select`). -/
def FilterExec.select (fe : FilterExec) (b : DataBlock) : Except String (FilterExec × Nat) :=
  match evalPredOnBlock fe.pred b with
  | .error e => .error e
  | .ok flags =>
    let sel := boolsToSel flags
    .ok ({ fe with true_selection := sel }, sel.length)

/-- Set the selection from an externally supplied bitmap
(`FilterExecutor::from_bitmap`). -/
def FilterExec.fromBitmap (fe : FilterExec) (bm : List Bool) : FilterExec × Nat :=
  let sel := boolsToSel bm
  ({ fe with true_selection := sel }, sel.length)

/-- Refine the first `count` entries of the current selection with a bitmap
(`FilterExecutor::select_bitmap`). -/
def FilterExec.selectBitmap (fe : FilterExec) (count : Nat) (bm : List Bool) :
    FilterExec × Nat :=
  let sel := (fe.true_selection.take count).filter (fun i => bm.getD i false)
  ({ fe with true_selection := sel }, sel.length)

/-- Compact a block to the first `count` selected rows
(`FilterExecutor::take`). -/
def FilterExec.takeRows (fe : FilterExec) (b : DataBlock) (count : Nat) : DataBlock :=
  let sel := fe.true_selection.take count
  { cols := b.cols.map (fun c => (c.1, sel.map (fun i => c.2.getD i Value.null))),
    nrows := sel.length }

/-- The value `a` is strictly worse than `b` for the sort direction:
larger for an ascending (smallest-K) sort, smaller for a descending one. -/
def worseThan (asc : Bool) (a b : Value) : Bool :=
  if asc then Value.lt b a else Value.lt a b

/-- Modelled from the spec: `TopKSorter` — maintains the current K best values
of the sort column; its bound (the K-th best, i.e. worst kept value) is used
to reject partitions, pages and rows that cannot enter the top-K result. -/
structure TopKSorter where
  limit : Nat
  asc : Bool
  data : List Value
deriving DecidableEq, Repr

/-- The sorter holds `limit` values already (a bound exists). -/
def TopKSorter.full (s : TopKSorter) : Bool := decide (s.limit ≤ s.data.length)

/-- The current bound: the worst value kept. -/
def TopKSorter.bound (s : TopKSorter) : Option Value :=
  match s.data with
  | [] => none
  | v :: rest => some (rest.foldl (fun w x => if worseThan s.asc x w then x else w) v)

/-- A single value can never enter the top-K result. -/
def TopKSorter.neverMatchValue (s : TopKSorter) (v : Value) : Bool :=
  s.full &&
    (match s.bound with
     | some b => worseThan s.asc v b
     | none => false)

/-- A partition whose sort column ranges over `mm` can never contribute. -/
def TopKSorter.neverMatch (s : TopKSorter) (mm : Value × Value) : Bool :=
  s.full &&
    (match s.bound with
     | some b => worseThan s.asc (if s.asc then mm.1 else mm.2) b
     | none => false)

/-- No value of the given page can enter the top-K result. -/
def TopKSorter.neverMatchAny (s : TopKSorter) (col : List Value) : Bool :=
  col.all (fun v => s.neverMatchValue v)

/-- Remove the first occurrence of a value. -/
def removeFirstVal : List Value → Value → List Value
  | [], _ => []
  | x :: xs, v => if x = v then xs else x :: removeFirstVal xs v

/-- Push one value into the sorter, evicting the current bound when the new
value beats it (the bound only ever tightens). -/
def TopKSorter.pushValue (s : TopKSorter) (v : Value) : TopKSorter :=
  if s.data.length < s.limit then { s with data := v :: s.data }
  else if s.neverMatchValue v then s
  else { s with data := v :: removeFirstVal s.data ((s.bound).getD v) }

/-- Push a whole column (`TopKSorter::push_column`); the bitmap output of the
source is unused by the caller under study and is omitted. -/
def TopKSorter.pushColumn (s : TopKSorter) (col : List Value) : TopKSorter :=
  col.foldl (fun acc v => acc.pushValue v) s

/-- Push the selected rows of a column, then drop from the selection the rows
that can no longer enter the top-K result
(`TopKSorter::push_column_with_selection`). -/
def TopKSorter.pushColumnWithSelection (s : TopKSorter) (col : List Value)
    (sel : List Nat) (count : Nat) : TopKSorter × List Nat × Nat :=
  let picked := sel.take count
  let s2 := picked.foldl (fun acc i => acc.pushValue (col.getD i Value.null)) s
  let sel2 := picked.filter (fun i => !(s2.neverMatchValue (col.getD i Value.null)))
  (s2, sel2, sel2.length)

/-- Modelled from the spec: a runtime bloom filter is an approximate membership
set over column values (`BinaryFuse8`); membership testing is all the caller
uses. -/
abbrev BloomFilter := List Value

/-- Probe one value against a bloom filter
(`update_bitmap_with_bloom_filter` sets the bit of each contained row). -/
def bloomContains (f : BloomFilter) (v : Value) : Bool := f.contains v

/-- A scannable partition descriptor (`FusePartInfo`): row count, optional
sort-key min/max statistics, optional partial-range start and page size. -/
structure FusePartInfo where
  nums_rows : Nat
  sort_min_max : Option (Value × Value)
  range_start : Option Nat
  page_size : Nat
deriving DecidableEq, Repr

/-- Per-part raw page-reader state, keyed by projected column index; the list
of pages a column's reader will yield.  The page codec is opaque per the spec,
so `build_array_iter` is modelled as returning the page list itself. -/
abbrev ChunkData := List (Nat × List Arr)

/-- A chunk: either normal per-column readers or a pre-aggregated-index
variant.  Modelled from the spec: the agg-index reader's
`deserialize_native_data` is opaque, so the variant carries the decoded block
it produces. -/
inductive NativeDataSource where
  | aggIndex (block : DataBlock)
  | normal (data : ChunkData)
deriving DecidableEq, Repr

/-- The metadata of an upstream block: a paired sequence of parts and chunks
(`DataSourceWithMeta`). -/
structure SourceMeta where
  meta : List FusePartInfo
  data : List NativeDataSource
deriving DecidableEq, Repr

/-- A virtual column: its own index in `src_schema`, its source column's
index, and the keypath extraction (`get_by_keypath`) as a function. -/
structure VirtualColumnInfo where
  vindex : Nat
  src_index : Nat
  extract : Value → Value

/-- The full state of `NativeDeserializeDataTransform`.  Configuration fields
are captured at creation; the remaining fields are the mutable state.
`bloom_provider_calls` and `default_checks` are instrumentation counters that
count calls to `ctx.get_bloom_runtime_filter_with_id` and to
`check_default_values` respectively (they change nothing else). -/
structure Transform where
  -- configuration
  num_cols : Nat
  prewhere_columns : List Nat
  prewhere_filter : Option Pred
  prewhere_virtual_columns : Option (List VirtualColumnInfo)
  virtual_columns : Option (List VirtualColumnInfo)
  virtual_reader : Option (List Nat)
  output_columns : List Nat
  default_vals : Nat → Value
  ctx_bloom_filters : List (Option Nat × BloomFilter)
  -- mutable state
  output_data : Option DataBlock
  parts : List FusePartInfo
  chunks : List NativeDataSource
  remain_columns : List Nat
  filter_executor : Option FilterExec
  skipped_page : Nat
  offset_in_part : Nat
  read_columns : List Nat
  read_column_ids : List Nat
  top_k : Option (TopKSorter × Nat)
  inited : Bool
  array_iters : List (Nat × List Arr)
  array_skip_pages : List (Nat × Nat)
  cached_bloom_runtime_filter : Option (List (Nat × BloomFilter))
  scan_rows : Nat
  scan_bytes : Nat
  bloom_provider_calls : Nat
  default_checks : Nat

/-- Stage a block for the output port, dropping empty blocks and counting scan
progress (`add_block`). -/
def addBlock (t : Transform) (b : DataBlock) : Transform :=
  if b.nrows = 0 then t
  else
    { t with
      scan_rows := t.scan_rows + b.nrows,
      scan_bytes := t.scan_bytes + b.memorySize,
      output_data := some b }

/-- Finish the current part: pop its chunk and part and reset the per-part
state (`finish_process`). -/
def finishProcess (t : Transform) : Except String Transform :=
  match t.parts with
  | [] => .error "finish_process: parts.pop_front().unwrap() on empty queue"
  | _ :: ps =>
    .ok { t with
          chunks := t.chunks.tail,
          parts := ps,
          inited := false,
          array_iters := [],
          array_skip_pages := [],
          offset_in_part := 0,
          read_column_ids := [] }

/-- Modelled from the spec: `BlockReader::build_default_values_block` — a block
of the part's row count where every projected column holds its default. -/
def buildDefaultValuesBlock (t : Transform) (n : Nat) : DataBlock :=
  { cols := (List.range t.num_cols).map (fun i => (i, List.replicate n (t.default_vals i))),
    nrows := n }

/-- Emit a part made entirely of default values (virtual columns become
`Null`), then finish the part (`finish_process_with_default_values`). -/
def finishProcessWithDefaultValues (t : Transform) : Except String Transform :=
  match t.parts with
  | [] => .error "finish_process_with_default_values: empty parts queue"
  | p :: ps =>
    let b0 := buildDefaultValuesBlock t p.nums_rows
    let b1 : DataBlock :=
      match t.virtual_columns with
      | some vcs =>
        { cols := b0.cols ++ vcs.map (fun vc => (vc.vindex, List.replicate b0.nrows Value.null)),
          nrows := b0.nrows }
      | none => b0
    let b2 := resort b1 t.output_columns
    let t2 := { t with
                chunks := t.chunks.tail,
                parts := ps,
                inited := false,
                array_iters := [],
                array_skip_pages := [],
                offset_in_part := 0,
                read_column_ids := [] }
    .ok (addBlock t2 b2)

/-- Empty projection: emit a zero-column block of the part's row count and pop
the part (`finish_process_with_empty_block`; note it does not reset the
per-part fields). -/
def finishProcessWithEmptyBlock (t : Transform) : Except String Transform :=
  match t.parts with
  | [] => .error "finish_process_with_empty_block: empty parts queue"
  | p :: ps =>
    let b : DataBlock := { cols := [], nrows := p.nums_rows }
    .ok (addBlock { t with chunks := t.chunks.tail, parts := ps } b)

/-- Skip the current page: count it and increment the skip counter of every
column not read in the current step (`finish_process_skip_page`). -/
def finishProcessSkipPage (t : Transform) : Transform :=
  { t with
    skipped_page := t.skipped_page + 1,
    array_skip_pages := t.array_skip_pages.map
      (fun e => if t.read_columns.contains e.1 then e else (e.1, e.2 + 1)) }

/-- Modelled from the spec: `ErrorCode::add_message` — the triggering context
is attached to the propagated error message. -/
def addErrMessage (msg e : String) : String := msg ++ " " ++ e

/-- All prewhere columns are default-valued (have no open iterator). -/
def allPrewhereDefaults (t : Transform) : Bool :=
  t.prewhere_columns.all (fun i => (alookup t.array_iters i).isNone)

/-- Every prewhere virtual column's source column is default-valued. -/
def allPrewhereVirtualDefaults (t : Transform) : Bool :=
  match t.prewhere_virtual_columns with
  | some vcs => vcs.all (fun c => (alookup t.array_iters c.src_index).isNone)
  | none => true

/-- The one-row block of constant defaults against which the pushed-down
predicate is checked (prewhere virtual columns read as `Null` since their
sources are defaults). -/
def defaultPrewhereBlock (t : Transform) : DataBlock :=
  let baseCols := t.prewhere_columns.map (fun i => (i, [t.default_vals i]))
  let vCols :=
    match t.prewhere_virtual_columns with
    | some vcs => vcs.map (fun c => (c.vindex, [Value.null]))
    | none => []
  { cols := baseCols ++ vCols, nrows := 1 }

/-- The top-K pre-check of `check_default_values`: the top-K column is
default-valued and its default can never enter the result. -/
def topkDefaultNeverMatch (t : Transform) : Bool :=
  if 1 < t.prewhere_columns.length then
    match t.top_k with
    | some (sorter, index) =>
      (alookup t.array_iters index).isNone &&
        sorter.neverMatchValue (t.default_vals index)
    | none => false
  else false

/-- The body of `check_default_values`: decide whether default-valued columns
rule the part out; returns `true` when the whole part can be skipped,
otherwise folds the default contribution into the top-K bound once. -/
def checkDefaultValuesCore (t : Transform) : Except String (Transform × Bool) :=
  if topkDefaultNeverMatch t then .ok (t, true)
  else
    match t.prewhere_filter with
    | none => .ok (t, false)
    | some filt =>
      if allPrewhereDefaults t && allPrewhereVirtualDefaults t then
        match evalPredOnBlock filt (defaultPrewhereBlock t) with
        | .error e => .error (addErrMessage "eval prewhere filter failed:" e)
        | .ok flags =>
          if flags.all (fun b => !b) then .ok (t, true)
          else
            match t.top_k with
            | some (sorter, index) =>
              if (alookup t.array_iters index).isNone then
                match t.parts with
                | [] => .error "check_default_values: FusePartInfo::from_part on empty parts"
                | p :: _ =>
                  let col := List.replicate p.nums_rows (t.default_vals index)
                  .ok ({ t with top_k := some (sorter.pushColumn col, index) }, false)
              else .ok (t, false)
            | none => .ok (t, false)
      else .ok (t, false)

/-- Check whether default-valued columns rule the part out
(`check_default_values`).  `default_checks` instruments the number of calls
and changes nothing else. -/
def checkDefaultValues (t0 : Transform) : Except String (Transform × Bool) :=
  checkDefaultValuesCore { t0 with default_checks := t0.default_checks + 1 }

/-- Build a block from the decoded arrays alone
(`BlockReader::build_block(arrays, None)`; row count taken from the first
array). -/
def buildBlock (arrays : List (Nat × Arr)) : DataBlock :=
  { cols := arrays, nrows := ((arrays.head?).map (fun a => a.2.length)).getD 0 }

/-- Modelled from the spec: `build_block(arrays, Some(default_val_indices))` —
default-valued prewhere columns contribute their cached default scalar,
expanded to the block's row count. -/
def buildBlockWithDefaults (t : Transform) (arrays : List (Nat × Arr))
    (defaults : List Nat) : DataBlock :=
  let n := ((arrays.head?).map (fun a => a.2.length)).getD 0
  { cols := arrays ++ defaults.map (fun i => (i, List.replicate n (t.default_vals i))),
    nrows := n }

/-- Add virtual columns to a block (`add_virtual_columns`): adopt a decoded
array for the virtual column when one exists among the read arrays, otherwise
extract from the source column with the keypath function.  Mirrors the
zero-row special case for default-valued sources. -/
def addVirtualColumnsList (chunksRead : List (Nat × Arr)) :
    List VirtualColumnInfo → DataBlock → DataBlock
  | [], block => block
  | vc :: rest, block =>
    match chunksRead.find? (fun c => c.1 == vc.vindex) with
    | some hit =>
      let block2 :=
        if 0 < block.cols.length ∧ block.nrows = 0 then
          { cols := block.cols ++ [(vc.vindex, hit.2)], nrows := hit.2.length }
        else block.addColumn (vc.vindex, hit.2)
      addVirtualColumnsList chunksRead rest block2
    | none =>
      let src := blockColumnD block vc.src_index
      addVirtualColumnsList chunksRead rest
        (block.addColumn (vc.vindex, src.map vc.extract))

/-- Dispatch on the optional virtual column list. -/
def addVirtualColumns (chunksRead : List (Nat × Arr))
    (vcs : Option (List VirtualColumnInfo)) (block : DataBlock) : DataBlock :=
  match vcs with
  | none => block
  | some vcs => addVirtualColumnsList chunksRead vcs block

/-- Modelled from the spec: `fill_missing_native_column_values` — projected
columns whose column ids were never read for this part are filled with their
precomputed defaults (leaf column ids are modelled as the column index). -/
def fillMissing (t : Transform) (b : DataBlock) : DataBlock :=
  let missing := (List.range t.num_cols).filter (fun i => !(t.read_column_ids.contains i))
  { cols := b.cols ++ missing.map (fun i => (i, List.replicate b.nrows (t.default_vals i))),
    nrows := b.nrows }

/-- A trivial always-true filter executor, built when bloom pruning needs a
selection but no prewhere predicate exists. -/
def dummyFilterExec : FilterExec :=
  { pred := fun _ => .ok true, true_selection := [] }

/-- Combine the collected bloom bitmaps and refine the row selection
(the tail of `bloom_runtime_filter` after the per-filter loop). -/
def bloomFinish (t : Transform) (arrays : List (Nat × Arr)) (count : Option Nat)
    (bitmaps : List (List Bool)) :
    Except String (Transform × List (Nat × Arr) × Bool × Option Nat) :=
  match bitmaps with
  | [] => .ok (t, arrays, false, count)
  | bm :: rest =>
    let rf := rest.foldl (fun acc b => List.zipWith and acc b) bm
    let fe :=
      match t.filter_executor with
      | some fe => fe
      | none => dummyFilterExec
    let r :=
      match count with
      | some c => fe.selectBitmap c rf
      | none => fe.fromBitmap rf
    .ok ({ t with filter_executor := some r.1 }, arrays, false, some (r.2))

/-- The per-filter loop of `bloom_runtime_filter`: find or decode the probed
column's current page, probe it, and either skip the page (a single all-empty
bitmap) or collect the bitmap for intersection.  The probe is written out in
both the found-array and freshly-decoded branches, mirroring the source's
`local_arrays` handling. -/
def bloomLoop (t : Transform) (filters : List (Nat × BloomFilter))
    (arrays : List (Nat × Arr)) (count : Option Nat) (bitmaps : List (List Bool)) :
    Except String (Transform × List (Nat × Arr) × Bool × Option Nat) :=
  match filters with
  | [] => bloomFinish t arrays count bitmaps
  | (idx, filter) :: rest =>
    match arrays.find? (fun a => a.1 == idx) with
    | some hit =>
      let bitmap := hit.2.map (fun v => bloomContains filter v)
      let unset := bitmap.count false
      if unset = bitmap.length then
        .ok (finishProcessSkipPage
               { t with offset_in_part := t.offset_in_part + hit.2.length },
             arrays, true, none)
      else if unset ≠ 0 then bloomLoop t rest arrays count (bitmaps ++ [bitmap])
      else bloomLoop t rest arrays count bitmaps
    | none =>
      match alookup t.array_iters idx with
      | none => .error "bloom_runtime_filter: get_last_column on empty probe block"
      | some iters =>
        match alookup t.array_skip_pages idx with
        | none => .error "bloom_runtime_filter: array_skip_pages.get.unwrap"
        | some skips =>
          match iters.drop skips with
          | [] => .ok (t, arrays, false, count)
          | arr :: iters2 =>
            let t2 : Transform :=
              { t with
                remain_columns := removeFirstNat t.remain_columns idx,
                read_columns := t.read_columns ++ [idx],
                array_iters := ainsert t.array_iters idx iters2,
                array_skip_pages := ainsert t.array_skip_pages idx 0 }
            let bitmap := arr.map (fun v => bloomContains filter v)
            let unset := bitmap.count false
            if unset = bitmap.length then
              .ok (finishProcessSkipPage
                     { t2 with offset_in_part := t2.offset_in_part + arr.length },
                   arrays ++ [(idx, arr)], true, none)
            else if unset ≠ 0 then
              bloomLoop t2 rest (arrays ++ [(idx, arr)]) count (bitmaps ++ [bitmap])
            else bloomLoop t2 rest (arrays ++ [(idx, arr)]) count bitmaps

/-- Runtime bloom-filter pruning (`bloom_runtime_filter`): resolve and memoize
the filter set on first use, probe every filtered column's current page, and
either skip the page or refine the selection. -/
def bloomRuntimeFilter (t : Transform) (arrays : List (Nat × Arr))
    (count : Option Nat) :
    Except String (Transform × List (Nat × Arr) × Bool × Option Nat) :=
  match t.cached_bloom_runtime_filter with
  | some fs => bloomLoop t fs arrays count []
  | none =>
    let t2 := { t with bloom_provider_calls := t.bloom_provider_calls + 1 }
    let bloom_filters :=
      t2.ctx_bloom_filters.filterMap (fun f => f.1.map (fun i => (i, f.2)))
    if bloom_filters.isEmpty then .ok (t2, arrays, false, count)
    else
      bloomLoop { t2 with cached_bloom_runtime_filter := some bloom_filters }
        bloom_filters arrays count []

/-- Read loop shared by step 2 (prewhere columns, `isPrewhere = true`) and
step 5 (remaining columns): consume each listed column's next page honouring
its skip count; columns without an iterator are recorded for default filling;
an exhausted iterator ends the part defensively. -/
def readCols (cols : List Nat) (isPrewhere : Bool) (t : Transform)
    (arrays : List (Nat × Arr)) (defaults : List Nat) (needFill : Bool) :
    Except String (Transform ⊕ (Transform × List (Nat × Arr) × List Nat × Bool)) :=
  match cols with
  | [] => .ok (.inr (t, arrays, defaults, needFill))
  | i :: rest =>
    if isPrewhere && t.read_columns.contains i then
      readCols rest isPrewhere t arrays defaults needFill
    else
      match alookup t.array_iters i with
      | some iters =>
        match alookup t.array_skip_pages i with
        | none => .error "process: array_skip_pages.get.unwrap"
        | some skips =>
          match iters.drop skips with
          | arr :: iters2 =>
            readCols rest isPrewhere
              { t with
                read_columns := t.read_columns ++ [i],
                array_iters := ainsert t.array_iters i iters2,
                array_skip_pages := ainsert t.array_skip_pages i 0 }
              (arrays ++ [(i, arr)]) defaults needFill
          | [] => (finishProcess t).map .inl
      | none =>
        if isPrewhere then
          readCols rest isPrewhere t arrays (defaults ++ [i]) true
        else
          readCols rest isPrewhere t arrays defaults true

/-- Step 1 of the per-page pipeline: when the predicate involves more than the
sort column, decode the sort column's next page first and skip the page if no
value can beat the current top-K bound. -/
def stepTopK (t : Transform) :
    Except String (Transform ⊕ (Transform × List (Nat × Arr))) :=
  if 1 < t.prewhere_columns.length then
    match t.top_k with
    | some (sorter, index) =>
      match alookup t.array_iters index with
      | some iters =>
        match iters with
        | arr :: iters2 =>
          let t2 := { t with
                      read_columns := t.read_columns ++ [index],
                      array_iters := ainsert t.array_iters index iters2 }
          if sorter.neverMatchAny arr then
            .ok (.inl (finishProcessSkipPage
              { t2 with offset_in_part := t2.offset_in_part + arr.length }))
          else .ok (.inr (t2, [(index, arr)]))
        | [] => (finishProcess t).map .inl
      | none => .ok (.inr (t, []))
    | none => .ok (.inr (t, []))
  else .ok (.inr (t, []))

/-- The narrow prewhere block built for predicate evaluation (steps 2-3):
decoded prewhere columns, default scalars for the rest, plus prewhere virtual
columns. -/
def prewhereBlockOf (t : Transform) (arrays : List (Nat × Arr))
    (defaults : List Nat) : DataBlock :=
  addVirtualColumns arrays t.prewhere_virtual_columns
    (if arrays.length < t.prewhere_columns.length then
       buildBlockWithDefaults t arrays defaults
     else buildBlock arrays)

/-- Steps 3-4 of the per-page pipeline: evaluate the prewhere predicate, skip
the page on zero matches, then tighten the top-K bound with the surviving rows
and skip again if none remain. -/
def stepPrewhereFilter (t : Transform) (arrays : List (Nat × Arr))
    (defaults : List Nat) :
    Except String (Transform ⊕ (Transform × Option Nat)) :=
  match t.prewhere_filter with
  | none => .ok (.inr (t, none))
  | some _ =>
    if arrays.isEmpty then .ok (.inr (t, none))
    else
      let pb := prewhereBlockOf t arrays defaults
      match t.filter_executor with
      | none => .error "process: filter_executor.as_mut().unwrap"
      | some fe =>
        match fe.select pb with
        | .error e => .error e
        | .ok (fe2, count) =>
          let t2 := { t with filter_executor := some fe2 }
          if count = 0 then
            .ok (.inl (finishProcessSkipPage
              { t2 with offset_in_part := t2.offset_in_part + pb.nrows }))
          else
            match t2.top_k with
            | some (sorter, index) =>
              let r := sorter.pushColumnWithSelection (blockColumnD pb index)
                         fe2.true_selection count
              let t3 := { t2 with
                          top_k := some (r.1, index),
                          filter_executor := some { fe2 with true_selection := r.2.1 } }
              if r.2.2 = 0 then
                .ok (.inl (finishProcessSkipPage
                  { t3 with offset_in_part := t3.offset_in_part + pb.nrows }))
              else .ok (.inr (t3, some r.2.2))
            | none => .ok (.inr (t2, some count))

/-- Steps 6-9 of the per-page pipeline: build the full block, fill defaults,
add virtual columns, apply the selection, project into the output schema,
advance `offset_in_part` by the page's original row count and stage the block
(metadata attachment for internal/stream columns carries no row data and is
not modelled). -/
def emitBlock (t : Transform) (arrays : List (Nat × Arr)) (needFill : Bool)
    (filteredCount : Option Nat) : Except String Transform :=
  let b0 := buildBlock arrays
  let b1 := if needFill then fillMissing t b0 else b0
  let b2 := addVirtualColumns arrays t.virtual_columns b1
  let origin := b2.nrows
  match filteredCount with
  | some c =>
    match t.filter_executor with
    | none => .error "process: filter_executor.as_mut().unwrap"
    | some fe =>
      let b3 := resort (fe.takeRows b2 c) t.output_columns
      .ok (addBlock { t with offset_in_part := t.offset_in_part + origin } b3)
  | none =>
    let b3 := resort b2 t.output_columns
    .ok (addBlock { t with offset_in_part := t.offset_in_part + origin } b3)

/-- One page-level decode-and-filter step (the body of `process` once the part
is initialised). -/
def pageStep (t0 : Transform) : Except String Transform :=
  let t := { t0 with read_columns := [] }
  match stepTopK t with
  | .error e => .error e
  | .ok (.inl tr) => .ok tr
  | .ok (.inr (t1, arrays1)) =>
    match readCols t1.prewhere_columns true t1 arrays1 [] false with
    | .error e => .error e
    | .ok (.inl tr) => .ok tr
    | .ok (.inr (t2, arrays2, defaults2, needFill2)) =>
      match stepPrewhereFilter t2 arrays2 defaults2 with
      | .error e => .error e
      | .ok (.inl tr) => .ok tr
      | .ok (.inr (t3, count3)) =>
        match bloomRuntimeFilter t3 arrays2 count3 with
        | .error e => .error e
        | .ok (t4, arrays4, skipped, count4) =>
          if skipped then .ok t4
          else
            match readCols t4.remain_columns false t4 arrays4 [] needFill2 with
            | .error e => .error e
            | .ok (.inl tr) => .ok tr
            | .ok (.inr (t5, arrays5, _, needFill5)) =>
              emitBlock t5 arrays5 needFill5 count4

/-- Apply the row offset implied by a partial-range scan. -/
def applyRange (t : Transform) (p : FusePartInfo) : Transform :=
  match p.range_start with
  | some s => { t with offset_in_part := p.page_size * s }
  | none => t

/-- The part-level min/max top-K pruning test at initialisation. -/
def topkNeverMatchPart (t : Transform) (p : FusePartInfo) : Bool :=
  match t.top_k, p.sort_min_max with
  | some (sorter, _), some mm => sorter.neverMatch mm
  | _, _ => false

/-- Open the iterators of the projected columns that have readers; columns
with no readers are default-valued. -/
def initColsLoop (t : Transform) (data : ChunkData) :
    List Nat → Bool → Transform × Bool
  | [], hasDef => (t, hasDef)
  | i :: rest, hasDef =>
    let readers := (alookup data i).getD []
    if readers.isEmpty then initColsLoop t data rest true
    else
      initColsLoop
        { t with
          array_iters := ainsert t.array_iters i readers,
          array_skip_pages := ainsert t.array_skip_pages i 0,
          read_column_ids := t.read_column_ids ++ [i] }
        data rest hasDef

/-- Iterate the projected column nodes in order. -/
def initColumns (t : Transform) (data : ChunkData) : Transform × Bool :=
  initColsLoop t data (List.range t.num_cols) false

/-- Open iterators for virtual columns whose chunk carries readers. -/
def initVirtLoop (t : Transform) (data : ChunkData) :
    List Nat → Nat → Transform
  | [], _ => t
  | v :: rest, j =>
    let t2 :=
      match alookup data (t.num_cols + j) with
      | some readers =>
        { t with
          array_iters := ainsert t.array_iters v readers,
          array_skip_pages := ainsert t.array_skip_pages v 0 }
      | none => t
    initVirtLoop t2 data rest (j + 1)

/-- Dispatch on the optional virtual column reader. -/
def initVirtualIters (t : Transform) (data : ChunkData) : Transform :=
  match t.virtual_reader with
  | none => t
  | some vs => initVirtLoop t data vs 0

/-- Part initialisation on the first `Sync` of a new part (`process`, the
`!self.inited` branch).  `Sum.inl` means `process` returned (part finished or
skipped); `Sum.inr` continues into the page pipeline. -/
def initPart (t : Transform) (data : ChunkData) :
    Except String (Transform ⊕ Transform) :=
  match t.parts with
  | [] => .error "process: FusePartInfo::from_part on empty parts"
  | p :: _ =>
    let t1 := applyRange t p
    if topkNeverMatchPart t1 p then (finishProcess t1).map .inl
    else
      let r := initColumns t1 data
      let t2 := { initVirtualIters r.1 data with inited := true }
      if r.2 then
        match checkDefaultValues t2 with
        | .error e => .error e
        | .ok (t3, true) => (finishProcess t3).map .inl
        | .ok (t3, false) =>
          if t3.array_iters.isEmpty then (finishProcessWithDefaultValues t3).map .inl
          else .ok (.inr t3)
      else
        if t2.array_iters.isEmpty then (finishProcessWithDefaultValues t2).map .inl
        else .ok (.inr t2)

/-- A synchronous unit of work (`process`): decode the pre-aggregated index
directly, emit an empty-projection block, initialise a new part, or run one
page step. -/
def process (t : Transform) : Except String Transform :=
  match t.chunks with
  | [] => .ok t
  | chunk :: _ =>
    match chunk with
    | .aggIndex block =>
      finishProcess { t with output_data := some block }
    | .normal data =>
      if data.isEmpty && !t.inited then finishProcessWithEmptyBlock t
      else if !t.inited then
        match initPart t data with
        | .error e => .error e
        | .ok (.inl tr) => .ok tr
        | .ok (.inr t2) => pageStep t2
      else pageStep t

/-- The scheduling directives a processor can return. -/
inductive Event where
  | needData
  | needConsume
  | sync
  | async
  | finished
deriving DecidableEq, Repr

/-- The port state visible to `event()`: downstream finished/full flags, the
upstream finished flag, and the input slot.  A present input block carries an
optional `DataSourceWithMeta` (a missing meta is the `unreachable!` case).
`need_data`, `pushed`, `input_finish_called` and `output_finish_called` record
the side effects `event()` performs on the ports. -/
structure Ports where
  output_finished : Bool
  output_can_push : Bool
  input_finished : Bool
  input_data : Option (Option SourceMeta)
  need_data : Bool
  pushed : List DataBlock
  input_finish_called : Bool
  output_finish_called : Bool

/-- The scheduling query (`event`): inspects port state, moves at most one
block, and returns a directive.  `none` models the `unreachable!` panic on an
input block without source metadata. -/
def event (t : Transform) (p : Ports) : Option (Transform × Ports × Event) :=
  if p.output_finished then
    some (t, { p with input_finish_called := true }, .finished)
  else if !p.output_can_push then
    some (t, { p with need_data := false }, .needConsume)
  else
    match t.output_data with
    | some b =>
      some ({ t with output_data := none }, { p with pushed := p.pushed ++ [b] },
            .needConsume)
    | none =>
      if !t.chunks.isEmpty then
        some (t,
              if p.input_data.isNone then { p with need_data := true } else p,
              .sync)
      else
        match p.input_data with
        | some ob =>
          match ob with
          | some sm =>
            some ({ t with parts := sm.meta, chunks := sm.data },
                  { p with input_data := none }, .sync)
          | none => none
        | none =>
          if p.input_finished then
            some (t, { p with output_finish_called := true }, .finished)
          else some (t, { p with need_data := true }, .needData)

/-- Modelled from the spec: the directive table of the Processor/Port
scheduling contract, read as a priority-ordered state machine — `Finished`
when downstream finished, else `NeedConsume` when the output buffer holds a
block or downstream cannot accept, else `Sync` when chunks are pending or
fresh input is available, else `Finished` when upstream finished with no
buffered data, else `NeedData`. -/
def eventSpec (t : Transform) (p : Ports) : Event :=
  if p.output_finished then .finished
  else if t.output_data.isSome || !p.output_can_push then .needConsume
  else if !t.chunks.isEmpty || p.input_data.isSome then .sync
  else if p.input_finished then .finished
  else .needData

/-! ### Concrete states for witnesses and counterexamples -/

/-- A transform with empty queues and trivial configuration, the base for the
concrete states used by witnesses and counterexamples. -/
def baseT : Transform :=
  { num_cols := 0, prewhere_columns := [], prewhere_filter := none,
    prewhere_virtual_columns := none, virtual_columns := none,
    virtual_reader := none, output_columns := [],
    default_vals := fun _ => .int 0, ctx_bloom_filters := [],
    output_data := none, parts := [], chunks := [], remain_columns := [],
    filter_executor := none, skipped_page := 0, offset_in_part := 0,
    read_columns := [], read_column_ids := [], top_k := none, inited := false,
    array_iters := [], array_skip_pages := [],
    cached_bloom_runtime_filter := none, scan_rows := 0, scan_bytes := 0,
    bloom_provider_calls := 0, default_checks := 0 }

/-- The predicate `price > 10` of the spec's Scenario A. -/
def predGT10 : Pred := fun r =>
  match r 0 with
  | .int v => .ok (decide (10 < v))
  | .null => .ok false

/-- Scenario A: one part, one page of four rows `[5, 12, 20, 3]`, prewhere
predicate `price > 10`. -/
def scenA : Transform :=
  { baseT with
    num_cols := 1, prewhere_columns := [0], prewhere_filter := some predGT10,
    output_columns := [0],
    filter_executor := some { pred := predGT10, true_selection := [] },
    parts := [{ nums_rows := 4, sort_min_max := none, range_start := none,
                page_size := 0 }],
    chunks := [.normal [(0, [[.int 5, .int 12, .int 20, .int 3]])]] }

/-- Scenario B: top-K (limit 1, descending) with bound already at 9, part
statistics min/max `[0, 5]`. -/
def scenB : Transform :=
  { baseT with
    num_cols := 1, prewhere_columns := [0], output_columns := [0],
    top_k := some ({ limit := 1, asc := false, data := [.int 9] }, 0),
    parts := [{ nums_rows := 4, sort_min_max := some (.int 0, .int 5),
                range_start := none, page_size := 0 }],
    chunks := [.normal [(0, [[.int 1, .int 2, .int 3, .int 4]])]] }

/-- Two bloom filters on column 0 whose bitmaps are each non-empty but whose
intersection is empty, over the page `[1, 2]`. -/
def cex4State : Transform :=
  { baseT with
    num_cols := 1, prewhere_columns := [0], output_columns := [0],
    ctx_bloom_filters := [(some 0, [.int 1]), (some 0, [.int 2])],
    parts := [{ nums_rows := 2, sort_min_max := none, range_start := none,
                page_size := 0 }],
    chunks := [.normal [(0, [[.int 1, .int 2]])]] }

/-- One partition with two pages and an empty bloom-filter provider result. -/
def cex8State : Transform :=
  { baseT with
    num_cols := 1, prewhere_columns := [0], output_columns := [0],
    parts := [{ nums_rows := 2, sort_min_max := none, range_start := none,
                page_size := 0 }],
    chunks := [.normal [(0, [[.int 1], [.int 2]])]] }

/-- A predicate whose evaluation always fails. -/
def predBoom : Pred := fun _ => .error "boom"

/-- A part whose per-page prewhere evaluation fails at runtime. -/
def cex9State : Transform :=
  { baseT with
    num_cols := 1, prewhere_columns := [0], prewhere_filter := some predBoom,
    output_columns := [0],
    filter_executor := some { pred := predBoom, true_selection := [] },
    parts := [{ nums_rows := 1, sort_min_max := none, range_start := none,
                page_size := 0 }],
    chunks := [.normal [(0, [[.int 5]])]] }

/-- A predicate true exactly on rows whose column 0 equals 7 (false on the
default value 0). -/
def predEq7 : Pred := fun r => .ok (decide (r 0 = .int 7))

/-- A part where the remaining column 1 is default-valued but the prewhere
column 0 has data, and the predicate is false on the constant default row. -/
def cex6State : Transform :=
  { baseT with
    num_cols := 2, prewhere_columns := [0], remain_columns := [1],
    prewhere_filter := some predEq7, output_columns := [0, 1],
    filter_executor := some { pred := predEq7, true_selection := [] },
    parts := [{ nums_rows := 1, sort_min_max := none, range_start := none,
                page_size := 0 }],
    chunks := [.normal [(0, [[.int 7]])]] }

/-- A pre-aggregated-index chunk that decodes to an empty block. -/
def cex10State : Transform :=
  { baseT with
    parts := [{ nums_rows := 0, sort_min_max := none, range_start := none,
                page_size := 0 }],
    chunks := [.aggIndex { cols := [], nrows := 0 }] }

/-- Idle ports: downstream open and accepting, upstream alive with no data. -/
def portsIdle : Ports :=
  { output_finished := false, output_can_push := true, input_finished := false,
    input_data := none, need_data := false, pushed := [],
    input_finish_called := false, output_finish_called := false }

/-! ### Helper lemmas about the association-list maps -/

theorem alookup_ainsert {α : Type} (m : List (Nat × α)) (k : Nat) (v : α) (j : Nat) :
    alookup (ainsert m k v) j = if k = j then some v else alookup m j := by
  induction m with
  | nil => simp [ainsert, alookup]
  | cons e rest ih =>
    obtain ⟨a, w⟩ := e
    by_cases hk : a = k
    · subst hk
      by_cases hj : a = j <;> simp [ainsert, alookup, hj]
    · by_cases hj : a = j
      · subst hj
        have : ¬ k = a := fun h => hk h.symm
        simp [ainsert, alookup, hk, this]
      · simp [ainsert, alookup, hk, hj, ih]

theorem alookup_skip_map (m : List (Nat × Nat)) (rc : List Nat) (i : Nat) :
    alookup (m.map (fun e => if rc.contains e.1 then e else (e.1, e.2 + 1))) i =
      if rc.contains i then alookup m i
      else (alookup m i).map (fun n => n + 1) := by
  induction m with
  | nil => by_cases h : i ∈ rc <;> simp [alookup, h]
  | cons e rest ih =>
    obtain ⟨k, n⟩ := e
    rw [List.map_cons]
    by_cases hc : k ∈ rc
    · have hif : (if rc.contains (k, n).1 then (k, n) else ((k, n).1, (k, n).2 + 1))
          = (k, n) := by simp [hc]
      rw [hif]
      by_cases hk : k = i
      · subst hk; simp [alookup, hc]
      · simp [alookup, hk]; simpa using ih
    · have hif : (if rc.contains (k, n).1 then (k, n) else ((k, n).1, (k, n).2 + 1))
          = (k, n + 1) := by simp [hc]
      rw [hif]
      by_cases hk : k = i
      · subst hk; simp [alookup, hc]
      · simp [alookup, hk]; simpa using ih

/-- Lookup after `finishProcessSkipPage`: counters of columns read in the
current step are kept, all others are incremented. -/
theorem skipPage_lookup (t : Transform) (i : Nat) :
    alookup (finishProcessSkipPage t).array_skip_pages i =
      if t.read_columns.contains i then alookup t.array_skip_pages i
      else (alookup t.array_skip_pages i).map (fun n => n + 1) := by
  unfold finishProcessSkipPage
  exact alookup_skip_map t.array_skip_pages t.read_columns i

/-! ### Frame lemmas: which state fields each pipeline stage can touch -/

/-- `applyRange` only changes `offset_in_part`. -/
theorem applyRange_frame (t : Transform) (p : FusePartInfo) :
    applyRange t p = { t with offset_in_part := (applyRange t p).offset_in_part } := by
  unfold applyRange
  cases p.range_start <;> rfl

/-- Field projections of `applyRange`: everything except `offset_in_part` is
unchanged. -/
theorem applyRange_proj (t : Transform) (p : FusePartInfo) :
    (applyRange t p).parts = t.parts ∧ (applyRange t p).chunks = t.chunks ∧
    (applyRange t p).output_data = t.output_data ∧
    (applyRange t p).skipped_page = t.skipped_page ∧
    (applyRange t p).scan_rows = t.scan_rows ∧
    (applyRange t p).scan_bytes = t.scan_bytes ∧
    (applyRange t p).top_k = t.top_k ∧
    (applyRange t p).inited = t.inited ∧
    (applyRange t p).default_checks = t.default_checks ∧
    (applyRange t p).bloom_provider_calls = t.bloom_provider_calls ∧
    (applyRange t p).cached_bloom_runtime_filter = t.cached_bloom_runtime_filter ∧
    (applyRange t p).array_iters = t.array_iters ∧
    (applyRange t p).read_column_ids = t.read_column_ids := by
  unfold applyRange
  cases p.range_start <;>
    exact ⟨rfl, rfl, rfl, rfl, rfl, rfl, rfl, rfl, rfl, rfl, rfl, rfl, rfl⟩

/-- A successful `finishProcess` pops the part and chunk and resets the
per-part state, leaving everything else unchanged. -/
theorem finishProcess_ok (t t' : Transform) (h : finishProcess t = .ok t') :
    ∃ p ps, t.parts = p :: ps ∧
      t' = { t with chunks := t.chunks.tail, parts := ps, inited := false,
                    array_iters := [], array_skip_pages := [],
                    offset_in_part := 0, read_column_ids := [] } := by
  unfold finishProcess at h
  match hp : t.parts with
  | [] => rw [hp] at h; exact absurd h (by simp)
  | p :: ps =>
    rw [hp] at h
    exact ⟨p, ps, rfl, by injection h with h2; exact h2.symm⟩

/-- In the continue case, `stepTopK` changes only `read_columns` and
`array_iters`. -/
theorem stepTopK_inr_frame (t t1 : Transform) (a : List (Nat × Arr))
    (h : stepTopK t = .ok (.inr (t1, a))) :
    t1 = { t with read_columns := t1.read_columns, array_iters := t1.array_iters } := by
  unfold stepTopK at h
  split at h
  · split at h
    · next sorter index heq =>
      -- within the matched pair
      rename_i pr
      split at h
      · split at h
        · split at h
          · exact absurd h (by simp)
          · injection h with h2
            injection h2 with h3
            cases h3
            rfl
        · -- exhausted: (finishProcess t).map .inl = .ok (.inr _)
          cases hf : finishProcess t with
          | error e => rw [hf] at h; simp [Except.map] at h
          | ok v => rw [hf] at h; simp [Except.map] at h
      · injection h with h2; injection h2 with h3; cases h3; rfl
    · injection h with h2; injection h2 with h3; cases h3; rfl
  · injection h with h2; injection h2 with h3; cases h3; rfl

/-- In the continue case, `readCols` changes only `read_columns`,
`array_iters` and `array_skip_pages`. -/
theorem readCols_inr_frame (cols : List Nat) (pw : Bool) :
    ∀ t arrays defaults nf t2 a2 d2 n2,
      readCols cols pw t arrays defaults nf = .ok (.inr (t2, a2, d2, n2)) →
      t2 = { t with read_columns := t2.read_columns, array_iters := t2.array_iters,
                    array_skip_pages := t2.array_skip_pages } := by
  induction cols with
  | nil =>
    intro t arrays defaults nf t2 a2 d2 n2 h
    simp only [readCols, Except.ok.injEq, Sum.inr.injEq, Prod.mk.injEq] at h
    obtain ⟨ht, -, -, -⟩ := h
    subst ht
    rfl
  | cons i rest ih =>
    intro t arrays defaults nf t2 a2 d2 n2 h
    unfold readCols at h
    split at h
    · exact ih _ _ _ _ _ _ _ _ h
    · split at h
      · split at h
        · simp at h
        · split at h
          · have hfr := ih _ _ _ _ _ _ _ _ h
            exact hfr
          · cases hf : finishProcess t <;> rw [hf] at h <;> simp [Except.map] at h
      · split at h
        · exact ih _ _ _ _ _ _ _ _ h
        · exact ih _ _ _ _ _ _ _ _ h

/-- Skip-counter bookkeeping of `readCols`: read columns keep their reset
counter, newly consumed columns are reset to `0`, unread columns' counters are
untouched. -/
theorem readCols_inr_skip (cols : List Nat) (pw : Bool) :
    ∀ t arrays defaults nf t2 a2 d2 n2,
      readCols cols pw t arrays defaults nf = .ok (.inr (t2, a2, d2, n2)) →
      (∀ j, j ∈ t.read_columns → j ∈ t2.read_columns) ∧
      (∀ j, j ∈ t.read_columns → alookup t.array_skip_pages j = some 0 →
          alookup t2.array_skip_pages j = some 0) ∧
      (∀ j, j ∈ t2.read_columns → j ∉ t.read_columns →
          alookup t2.array_skip_pages j = some 0) ∧
      (∀ j, j ∉ t2.read_columns →
          alookup t2.array_skip_pages j = alookup t.array_skip_pages j ∧
          j ∉ t.read_columns) := by
  induction cols with
  | nil =>
    intro t arrays defaults nf t2 a2 d2 n2 h
    simp only [readCols, Except.ok.injEq, Sum.inr.injEq, Prod.mk.injEq] at h
    obtain ⟨ht, -, -, -⟩ := h
    subst ht
    refine ⟨fun j hj => hj, fun j _ h0 => h0, fun j hj hnj => absurd hj hnj,
      fun j hj => ⟨rfl, hj⟩⟩
  | cons i rest ih =>
    intro t arrays defaults nf t2 a2 d2 n2 h
    unfold readCols at h
    split at h
    · exact ih _ _ _ _ _ _ _ _ h
    · split at h
      · split at h
        · simp at h
        · split at h
          · obtain ⟨M, K, A, B⟩ := ih _ _ _ _ _ _ _ _ h
            constructor
            · intro j hj
              exact M j (by simp [hj])
            constructor
            · intro j hj h0
              refine K j (by simp [hj]) ?_
              rw [alookup_ainsert]
              by_cases hij : i = j <;> simp [hij, h0]
            constructor
            · intro j hj hnj
              by_cases hj2 : j ∈ t.read_columns ++ [i]
              · have hji : j = i := by
                  rcases List.mem_append.mp hj2 with h1 | h1
                  · exact absurd h1 hnj
                  · simpa using h1
                subst hji
                refine K j (by simp) ?_
                rw [alookup_ainsert]
                simp
              · exact A j hj hj2
            · intro j hj
              obtain ⟨hb1, hb2⟩ := B j hj
              have hji : ¬ j ∈ t.read_columns ∧ ¬ j = i := by
                constructor
                · intro hc; exact hb2 (by simp [hc])
                · intro hc; exact hb2 (by simp [hc])
              refine ⟨?_, hji.1⟩
              rw [hb1, alookup_ainsert]
              have : ¬ i = j := fun hc => hji.2 hc.symm
              simp [this]
          · cases hf : finishProcess t <;> rw [hf] at h <;> simp [Except.map] at h
      · split at h
        · exact ih _ _ _ _ _ _ _ _ h
        · exact ih _ _ _ _ _ _ _ _ h

/-! ### Claim C7: skip-counter invariant -/

/-- A state with an open iterator on column 0 and a stale skip counter on
column 1, used to witness the skip-counter invariant. -/
def w7pre : Transform :=
  { baseT with array_iters := [(0, [[Value.int 1]])],
               array_skip_pages := [(0, 0), (1, 5)] }

/-- The state `readCols [0]` reaches from `w7pre`: column 0 consumed. -/
def w7post : Transform :=
  { w7pre with read_columns := [0], array_iters := [(0, [])] }

/-- C7: across every `process()` step, when a page is skipped every column not
read in the current step has its skip counter incremented by exactly 1 while
columns already read keep theirs (`finish_process_skip_page`), and whenever a
column's page is consumed via `nth(skip)` its counter is reset to `0` while
untouched columns keep their counter (`readCols`, the shared read loop of
steps 2 and 5). -/
theorem skip_counters_consistent :
    (∀ (t : Transform) (i : Nat),
        alookup (finishProcessSkipPage t).array_skip_pages i =
          if t.read_columns.contains i then alookup t.array_skip_pages i
          else (alookup t.array_skip_pages i).map (fun n => n + 1)) ∧
    (∀ (cols : List Nat) (pw : Bool) (t : Transform) arrays defaults nf t2 a2 d2 n2,
        readCols cols pw t arrays defaults nf = .ok (.inr (t2, a2, d2, n2)) →
        (∀ j, j ∈ t2.read_columns → j ∉ t.read_columns →
            alookup t2.array_skip_pages j = some 0) ∧
        (∀ j, j ∉ t2.read_columns →
            alookup t2.array_skip_pages j = alookup t.array_skip_pages j)) :=
  ⟨skipPage_lookup,
   fun cols pw t arrays defaults nf t2 a2 d2 n2 h =>
     have r := readCols_inr_skip cols pw t arrays defaults nf t2 a2 d2 n2 h
     ⟨r.2.2.1, fun j hj => (r.2.2.2 j hj).1⟩⟩

/-- Witness for C7 at a concrete state: consuming column 0 resets its counter
to 0 and leaves column 1 untouched; a subsequent page skip bumps column 1's
counter from 5 to 6 and keeps column 0's at 0. -/
theorem skip_counters_consistent_witness :
    alookup w7post.array_skip_pages 0 = some 0 ∧
    alookup w7post.array_skip_pages 1 = some 5 ∧
    alookup (finishProcessSkipPage w7post).array_skip_pages 1 = some 6 ∧
    alookup (finishProcessSkipPage w7post).array_skip_pages 0 = some 0 := by
  have h := skip_counters_consistent.2 [0] true w7pre [] [] false w7post
    [(0, [Value.int 1])] [] false rfl
  refine ⟨h.1 0 (by decide) (by decide), ?_, ?_, ?_⟩
  · rw [h.2 1 (by decide)]; decide
  · rw [skip_counters_consistent.1 w7post 1]; decide
  · rw [skip_counters_consistent.1 w7post 0]; decide

/-! ### Claim C10: zero-row blocks and `add_block` -/

/-- C10 counterexample: a pre-aggregated-index chunk decoding to a zero-row
block is staged directly in `output_data`, bypassing `add_block` (no zero-row
guard, no progress accounting), and the next `event()` pushes it downstream. -/
theorem zero_row_block_pushed_counterexample :
    (process cex10State).map
        (fun t => ((event t portsIdle).map (fun r => (r.2.1.pushed, r.2.2)),
                   t.output_data, t.scan_rows))
      = .ok (some ([{ cols := [], nrows := 0 }], Event.needConsume),
             some { cols := [], nrows := 0 }, 0) := by rfl

/-- C10 amended: every block handed to `add_block` with zero rows is silently
dropped (state unchanged); a non-empty block is staged and the progress
counter advances by exactly its rows and bytes; hence `add_block` preserves
the invariant that the staged output block has at least one row.  (Blocks
from the pre-aggregated-index path bypass `add_block` entirely.) -/
theorem add_block_drops_empty (t : Transform) (b : DataBlock) :
    (b.nrows = 0 → addBlock t b = t) ∧
    (0 < b.nrows →
      (addBlock t b).output_data = some b ∧
      (addBlock t b).scan_rows = t.scan_rows + b.nrows ∧
      (addBlock t b).scan_bytes = t.scan_bytes + b.memorySize) ∧
    ((∀ b0, t.output_data = some b0 → 0 < b0.nrows) →
      ∀ b1, (addBlock t b).output_data = some b1 → 0 < b1.nrows) := by
  refine ⟨fun hz => ?_, fun hpos => ?_, fun hinv b1 hb1 => ?_⟩
  · unfold addBlock
    rw [if_pos hz]
  · have hz : ¬ b.nrows = 0 := by omega
    unfold addBlock
    rw [if_neg hz]
    exact ⟨rfl, rfl, rfl⟩
  · by_cases h0 : b.nrows = 0
    · unfold addBlock at hb1
      rw [if_pos h0] at hb1
      exact hinv b1 hb1
    · unfold addBlock at hb1
      rw [if_neg h0] at hb1
      have hb : b = b1 := by injection hb1
      rw [← hb]
      exact Nat.pos_of_ne_zero h0

/-- Witness for the amended C10: a zero-row block leaves the state unchanged,
a one-row block is staged with progress counted. -/
theorem add_block_drops_empty_witness :
    addBlock baseT { cols := [], nrows := 0 } = baseT ∧
    (addBlock baseT { cols := [(0, [Value.int 5])], nrows := 1 }).output_data
      = some { cols := [(0, [Value.int 5])], nrows := 1 } ∧
    (addBlock baseT { cols := [(0, [Value.int 5])], nrows := 1 }).scan_rows = 1 :=
  ⟨(add_block_drops_empty baseT _).1 rfl,
   ((add_block_drops_empty baseT _).2.1 (by decide)).1,
   ((add_block_drops_empty baseT _).2.1 (by decide)).2.1⟩

/-! ### Claim C1: the `event()` directive state machine -/

/-- C1: every terminating `event()` call returns exactly the directive of the
spec directive table (`eventSpec`) — in particular never `Async` — and
`event()` terminates (returns a directive) whenever any present input block
carries source metadata. -/
theorem event_follows_directive_table (t : Transform) (p : Ports) :
    (∀ t2 p2 e, event t p = some (t2, p2, e) →
        e = eventSpec t p ∧ e ≠ Event.async) ∧
    ((∀ ob, p.input_data = some ob → ob.isSome) → (event t p).isSome) := by
  constructor
  · intro t2 p2 e h
    unfold event at h
    unfold eventSpec
    by_cases h1 : p.output_finished
    · simp only [h1, if_true, Option.some.injEq, Prod.mk.injEq] at h
      obtain ⟨-, -, he⟩ := h
      subst he
      exact ⟨by simp [h1], by decide⟩
    · by_cases h2 : p.output_can_push
      · cases hod : t.output_data with
        | some b =>
          simp only [h1, h2, hod, Bool.not_true, if_false, Bool.false_eq_true,
            Option.some.injEq, Prod.mk.injEq] at h
          obtain ⟨-, -, he⟩ := h
          subst he
          simp [h1, h2, hod]
        | none =>
          by_cases h3 : t.chunks.isEmpty
          · cases hin : p.input_data with
            | some ob =>
              cases ob with
              | some sm =>
                simp only [h1, h2, hod, h3, hin, Bool.not_true, if_false,
                  Bool.not_false, Bool.false_eq_true, if_true, Option.some.injEq,
                  Prod.mk.injEq] at h
                obtain ⟨-, -, he⟩ := h
                subst he
                simp [h1, h2, hod, h3, hin]
              | none =>
                simp [h1, h2, hod, h3, hin] at h
            | none =>
              by_cases h4 : p.input_finished
              · simp only [h1, h2, hod, h3, hin, h4, Bool.not_true, if_false,
                  Bool.not_false, Bool.false_eq_true, if_true, Option.some.injEq,
                  Prod.mk.injEq] at h
                obtain ⟨-, -, he⟩ := h
                subst he
                simp [h1, h2, hod, h3, hin, h4]
              · simp only [h1, h2, hod, h3, hin, h4, Bool.not_true, if_false,
                  Bool.not_false, Bool.false_eq_true, if_true, Option.some.injEq,
                  Prod.mk.injEq] at h
                obtain ⟨-, -, he⟩ := h
                subst he
                simp [h1, h2, hod, h3, hin, h4]
          · simp only [h1, h2, hod, h3, Bool.not_true, if_false, Bool.not_false,
              Bool.false_eq_true, if_true, Option.some.injEq, Prod.mk.injEq] at h
            obtain ⟨-, -, he⟩ := h
            subst he
            simp [h1, h2, hod, h3]
      · simp only [h1, h2, Bool.not_false, if_true, if_false, Bool.false_eq_true,
          Option.some.injEq, Prod.mk.injEq] at h
        obtain ⟨-, -, he⟩ := h
        subst he
        simp [h1, h2]
  · intro hwf
    unfold event
    by_cases h1 : p.output_finished
    · simp [h1]
    · by_cases h2 : p.output_can_push
      · cases hod : t.output_data with
        | some b => simp [h1, h2, hod]
        | none =>
          by_cases h3 : t.chunks.isEmpty
          · cases hin : p.input_data with
            | some ob =>
              have hob := hwf ob hin
              cases ob with
              | some sm => simp [h1, h2, hod, h3, hin]
              | none => simp at hob
            | none =>
              by_cases h4 : p.input_finished <;> simp [h1, h2, hod, h3, hin, h4]
          · simp [h1, h2, hod, h3]
      · simp [h1, h2]

/-- Witness for C1 on idle ports: the returned directive is `NeedData`, which
is what the spec table prescribes. -/
theorem event_follows_directive_table_witness :
    Event.needData = eventSpec baseT portsIdle ∧ (event baseT portsIdle).isSome := by
  have h := event_follows_directive_table baseT portsIdle
  refine ⟨(h.1 _ _ _ rfl).1, h.2 ?_⟩
  intro ob hob
  simp [portsIdle] at hob

/-! ### Claim C5: part-level top-K min/max pruning -/

/-- C5: when a part carries sort-key min/max statistics that the current top-K
bound already excludes, `process()` pops the part and its chunk during
initialisation, emits nothing, leaves the skipped-page counter and scan
progress unchanged, and resets the per-part state. -/
theorem topk_minmax_skips_whole_part
    (t : Transform) (d : ChunkData) (rest : List NativeDataSource)
    (p : FusePartInfo) (ps : List FusePartInfo)
    (hch : t.chunks = .normal d :: rest)
    (hd : d.isEmpty = false)
    (hin : t.inited = false)
    (hp : t.parts = p :: ps)
    (hnm : topkNeverMatchPart t p = true) :
    ∃ t2, process t = .ok t2 ∧ t2.parts = ps ∧ t2.chunks = rest ∧
      t2.output_data = t.output_data ∧ t2.skipped_page = t.skipped_page ∧
      t2.scan_rows = t.scan_rows ∧ t2.scan_bytes = t.scan_bytes ∧
      t2.inited = false ∧ t2.offset_in_part = 0 := by
  have hpr := applyRange_proj t p
  have hnm2 : topkNeverMatchPart (applyRange t p) p = true := by
    unfold topkNeverMatchPart at hnm ⊢
    rw [hpr.2.2.2.2.2.2.1]
    exact hnm
  have hparts2 : (applyRange t p).parts = p :: ps := by rw [hpr.1]; exact hp
  have hchunks2 : (applyRange t p).chunks = NativeDataSource.normal d :: rest := by
    rw [hpr.2.1]; exact hch
  refine ⟨{ applyRange t p with
            chunks := rest, parts := ps,
            inited := false, array_iters := [], array_skip_pages := [],
            offset_in_part := 0, read_column_ids := [] },
          ?_, rfl, rfl, hpr.2.2.1, hpr.2.2.2.1, hpr.2.2.2.2.1, hpr.2.2.2.2.2.1,
          rfl, rfl⟩
  simp only [process, hch, hd, hin, Bool.false_and, Bool.not_false, if_true,
    if_false, Bool.false_eq_true, initPart, hp, hnm2, finishProcess, hparts2,
    hchunks2, List.tail_cons, Except.map]

/-- Witness for C5: the spec Scenario B state — descending top-K with bound 9
and part statistics `[0, 5]` — pops the part without output. -/
theorem topk_minmax_skips_whole_part_witness :
    ∃ t2, process scenB = .ok t2 ∧ t2.parts = [] ∧ t2.chunks = [] ∧
      t2.output_data = scenB.output_data ∧ t2.skipped_page = scenB.skipped_page ∧
      t2.scan_rows = scenB.scan_rows ∧ t2.scan_bytes = scenB.scan_bytes ∧
      t2.inited = false ∧ t2.offset_in_part = 0 :=
  topk_minmax_skips_whole_part scenB [(0, [[.int 1, .int 2, .int 3, .int 4]])] []
    { nums_rows := 4, sort_min_max := some (.int 0, .int 5), range_start := none,
      page_size := 0 } []
    rfl rfl rfl rfl (by decide)

/-! ### Claim C2: zero prewhere matches skip only the current page -/

/-- A mid-part state (iterators already open) whose only page fails the
prewhere predicate on every row. -/
def w2State : Transform :=
  { baseT with
    num_cols := 1, prewhere_columns := [0], prewhere_filter := some predGT10,
    output_columns := [0],
    filter_executor := some { pred := predGT10, true_selection := [] },
    parts := [{ nums_rows := 2, sort_min_max := none, range_start := none,
                page_size := 0 }],
    chunks := [.normal []],
    inited := true,
    array_iters := [(0, [[.int 1, .int 2]])],
    array_skip_pages := [(0, 0)],
    read_column_ids := [0] }

/-- C2: when the prewhere predicate selects zero rows of the current page,
`process()` skips only that page: the skipped-page counter rises by exactly 1,
`offset_in_part` advances by the page's row count, no block is emitted, the
part (queue position, chunk, `inited`) is retained, and the skip counter of
every column not read in this step is incremented by 1 while read columns keep
their (reset) counters. -/
theorem prewhere_zero_matches_skips_page_only
    (t t1 t2 : Transform) (d : ChunkData) (rest : List NativeDataSource)
    (a1 arrays : List (Nat × Arr)) (defaults : List Nat) (nf : Bool)
    (pr : Pred) (fe fe2 : FilterExec)
    (hch : t.chunks = .normal d :: rest)
    (hin : t.inited = true)
    (h1 : stepTopK { t with read_columns := [] } = .ok (.inr (t1, a1)))
    (h2 : readCols t1.prewhere_columns true t1 a1 [] false
            = .ok (.inr (t2, arrays, defaults, nf)))
    (hpf : t2.prewhere_filter = some pr)
    (hane : arrays.isEmpty = false)
    (hfe : t2.filter_executor = some fe)
    (hsel : fe.select (prewhereBlockOf t2 arrays defaults) = .ok (fe2, 0)) :
    ∃ t3, process t = .ok t3 ∧
      t3.skipped_page = t.skipped_page + 1 ∧
      t3.offset_in_part = t.offset_in_part + (prewhereBlockOf t2 arrays defaults).nrows ∧
      t3.output_data = t.output_data ∧
      t3.parts = t.parts ∧ t3.chunks = t.chunks ∧ t3.inited = true ∧
      t3.scan_rows = t.scan_rows ∧ t3.scan_bytes = t.scan_bytes ∧
      t3.read_columns = t2.read_columns ∧
      (∀ j, j ∉ t2.read_columns →
          alookup t3.array_skip_pages j =
            (alookup t.array_skip_pages j).map (fun n => n + 1)) ∧
      (∀ j, j ∈ t2.read_columns →
          alookup t3.array_skip_pages j = alookup t2.array_skip_pages j) := by
  have hf1 := stepTopK_inr_frame { t with read_columns := [] } t1 a1 h1
  have hf2 := readCols_inr_frame t1.prewhere_columns true t1 a1 [] false
    t2 arrays defaults nf h2
  have hs2 := readCols_inr_skip t1.prewhere_columns true t1 a1 [] false
    t2 arrays defaults nf h2
  -- field projections through the two read stages
  have e1sp : t1.array_skip_pages = t.array_skip_pages := by rw [hf1]
  have e1sk : t1.skipped_page = t.skipped_page := by rw [hf1]
  have e1of : t1.offset_in_part = t.offset_in_part := by rw [hf1]
  have e1od : t1.output_data = t.output_data := by rw [hf1]
  have e1pa : t1.parts = t.parts := by rw [hf1]
  have e1ch : t1.chunks = t.chunks := by rw [hf1]
  have e1in : t1.inited = t.inited := by rw [hf1]
  have e1sr : t1.scan_rows = t.scan_rows := by rw [hf1]
  have e1sb : t1.scan_bytes = t.scan_bytes := by rw [hf1]
  have e2sk : t2.skipped_page = t1.skipped_page := by rw [hf2]
  have e2of : t2.offset_in_part = t1.offset_in_part := by rw [hf2]
  have e2od : t2.output_data = t1.output_data := by rw [hf2]
  have e2pa : t2.parts = t1.parts := by rw [hf2]
  have e2ch : t2.chunks = t1.chunks := by rw [hf2]
  have e2in : t2.inited = t1.inited := by rw [hf2]
  have e2sr : t2.scan_rows = t1.scan_rows := by rw [hf2]
  have e2sb : t2.scan_bytes = t1.scan_bytes := by rw [hf2]
  refine ⟨finishProcessSkipPage
      { t2 with filter_executor := some fe2,
                offset_in_part := t2.offset_in_part
                  + (prewhereBlockOf t2 arrays defaults).nrows },
    ?_, ?_, ?_, ?_, ?_, ?_, ?_, ?_, ?_, rfl, ?_, ?_⟩
  · have hpg : process t = pageStep t := by
      simp only [process, hch, hin, Bool.not_true, Bool.and_false,
        Bool.false_eq_true, if_false]
    have h3 : stepPrewhereFilter t2 arrays defaults
        = .ok (.inl (finishProcessSkipPage
            { t2 with filter_executor := some fe2,
                      offset_in_part := t2.offset_in_part
                        + (prewhereBlockOf t2 arrays defaults).nrows })) := by
      simp only [stepPrewhereFilter, hpf, hane, Bool.false_eq_true, if_false,
        hfe, hsel, if_true]
    rw [hpg]
    simp only [pageStep, h1, h2, h3]
  · show t2.skipped_page + 1 = t.skipped_page + 1
    rw [e2sk, e1sk]
  · show t2.offset_in_part + (prewhereBlockOf t2 arrays defaults).nrows
      = t.offset_in_part + (prewhereBlockOf t2 arrays defaults).nrows
    rw [e2of, e1of]
  · show t2.output_data = t.output_data
    rw [e2od, e1od]
  · show t2.parts = t.parts
    rw [e2pa, e1pa]
  · show t2.chunks = t.chunks
    rw [e2ch, e1ch]
  · show t2.inited = true
    rw [e2in, e1in, hin]
  · show t2.scan_rows = t.scan_rows
    rw [e2sr, e1sr]
  · show t2.scan_bytes = t.scan_bytes
    rw [e2sb, e1sb]
  · intro j hj
    rw [skipPage_lookup]
    have hcon : ¬ (t2.read_columns.contains j = true) := by simp [hj]
    rw [if_neg hcon]
    have hun := (hs2.2.2.2 j hj).1
    show (alookup t2.array_skip_pages j).map (fun n => n + 1)
      = (alookup t.array_skip_pages j).map (fun n => n + 1)
    rw [hun, e1sp]
  · intro j hj
    rw [skipPage_lookup]
    have hcon : t2.read_columns.contains j = true := by simp [hj]
    rw [if_pos hcon]

/-- Witness for C2 at a concrete state: a two-row page with no matching rows
is skipped in place — counter 0 becomes 1, offset advances by 2, nothing is
emitted, and the part is retained. -/
theorem prewhere_zero_matches_skips_page_only_witness :
    ∃ t3, process w2State = .ok t3 ∧ t3.skipped_page = 1 ∧
      t3.offset_in_part = 2 ∧ t3.output_data = none ∧ t3.parts = w2State.parts := by
  obtain ⟨t3, hproc, hsp, hoff, hod, hparts, -, -, -, -, -, -, -⟩ :=
    prewhere_zero_matches_skips_page_only w2State _ _ _ _ _ _ _ _ _ _ _
      rfl rfl rfl rfl rfl rfl rfl rfl
  exact ⟨t3, hproc, by rw [hsp]; rfl, by rw [hoff]; rfl, by rw [hod]; rfl, hparts⟩

/-! ### Claim C9: prewhere evaluation errors -/

/-- A state with every prewhere column default-valued and a failing predicate,
exercising the default-values evaluation path. -/
def w9b : Transform :=
  { baseT with
    num_cols := 1,
    prewhere_columns := [0],
    prewhere_filter := some predBoom,
    filter_executor := some { pred := predBoom, true_selection := [] } }

/-- A mid-part state (iterators open) whose next page's prewhere evaluation
fails. -/
def w9a : Transform :=
  { baseT with
    num_cols := 1,
    prewhere_columns := [0],
    prewhere_filter := some predBoom,
    output_columns := [0],
    filter_executor := some { pred := predBoom, true_selection := [] },
    parts := [{ nums_rows := 1, sort_min_max := none, range_start := none,
                page_size := 0 }],
    chunks := [.normal []],
    inited := true,
    array_iters := [(0, [[.int 5]])],
    array_skip_pages := [(0, 0)],
    read_column_ids := [0] }

/-- C9 counterexample: a prewhere predicate failing during the per-page path
aborts `process()` with the error message unchanged — the context prefix
"eval prewhere filter failed:" is not attached on this path, contradicting
the claim that it always is. -/
theorem prewhere_error_prefix_counterexample :
    process cex9State = .error "boom" ∧
    addErrMessage "eval prewhere filter failed:" "boom" ≠ "boom" :=
  ⟨rfl, by decide⟩

/-- C9 amended: a failing prewhere evaluation always aborts the `process()`
call and is never retried, but the context prefix
"eval prewhere filter failed:" is attached only on the default-values check
path (`check_default_values`); on the per-page path the evaluation error is
propagated unchanged. -/
theorem prewhere_eval_error_amended :
    (∀ (t t1 t2 : Transform) (d : ChunkData) (rest : List NativeDataSource)
        (a1 arrays : List (Nat × Arr)) (defaults : List Nat) (nf : Bool)
        (pr : Pred) (fe : FilterExec) (msg : String),
        t.chunks = .normal d :: rest →
        t.inited = true →
        stepTopK { t with read_columns := [] } = .ok (.inr (t1, a1)) →
        readCols t1.prewhere_columns true t1 a1 [] false
          = .ok (.inr (t2, arrays, defaults, nf)) →
        t2.prewhere_filter = some pr →
        arrays.isEmpty = false →
        t2.filter_executor = some fe →
        fe.select (prewhereBlockOf t2 arrays defaults) = .error msg →
        process t = .error msg) ∧
    (∀ (t : Transform) (pr : Pred) (msg : String),
        t.top_k = none →
        t.prewhere_filter = some pr →
        allPrewhereDefaults t = true →
        allPrewhereVirtualDefaults t = true →
        evalPredOnBlock pr (defaultPrewhereBlock t) = .error msg →
        checkDefaultValues t
          = .error (addErrMessage "eval prewhere filter failed:" msg)) := by
  constructor
  · intro t t1 t2 d rest a1 arrays defaults nf pr fe msg
      hch hin h1 h2 hpf hane hfe hsel
    have hpg : process t = pageStep t := by
      simp only [process, hch, hin, Bool.not_true, Bool.and_false,
        Bool.false_eq_true, if_false]
    have h3 : stepPrewhereFilter t2 arrays defaults = .error msg := by
      simp only [stepPrewhereFilter, hpf, hane, Bool.false_eq_true, if_false,
        hfe, hsel]
    rw [hpg]
    simp only [pageStep, h1, h2, h3]
  · intro t pr msg htk hpf had hvd heval
    have hcore : ∀ u : Transform, u.top_k = none → u.prewhere_filter = some pr →
        allPrewhereDefaults u = true → allPrewhereVirtualDefaults u = true →
        evalPredOnBlock pr (defaultPrewhereBlock u) = .error msg →
        checkDefaultValuesCore u
          = .error (addErrMessage "eval prewhere filter failed:" msg) := by
      intro u htk2 hpf2 had2 hvd2 heval2
      have e1 : topkDefaultNeverMatch u = false := by
        unfold topkDefaultNeverMatch
        rw [htk2]
        by_cases hl : 1 < u.prewhere_columns.length <;> simp [hl]
      unfold checkDefaultValuesCore
      simp only [e1, Bool.false_eq_true, if_false, hpf2, had2, hvd2,
        Bool.and_self, if_true, heval2]
    exact hcore { t with default_checks := t.default_checks + 1 }
      htk hpf had hvd heval

/-- Witness for the amended C9: the per-page path propagates "boom" verbatim,
the default-values path attaches the prefix. -/
theorem prewhere_eval_error_amended_witness :
    process w9a = .error "boom" ∧
    checkDefaultValues w9b
      = .error (addErrMessage "eval prewhere filter failed:" "boom") := by
  constructor
  · exact prewhere_eval_error_amended.1 w9a _ _ _ _ _ _ _ _ _ _ "boom"
      rfl rfl rfl rfl rfl rfl rfl rfl
  · exact prewhere_eval_error_amended.2 w9b predBoom "boom" rfl rfl rfl rfl rfl

/-! ### Claim C4: runtime bloom-filter pruning -/

/-- Page-skip bookkeeping of the bloom loop: the skipped-page counter rises by
exactly 1 precisely on the skip outcome, nothing is ever emitted, and the part
is never popped. -/
theorem bloomLoop_skip_props :
    ∀ (filters : List (Nat × BloomFilter)) t arrays count bitmaps t4 a4 sk c4,
      bloomLoop t filters arrays count bitmaps = .ok (t4, a4, sk, c4) →
      (sk = true → t4.skipped_page = t.skipped_page + 1 ∧
          t.offset_in_part ≤ t4.offset_in_part ∧ c4 = none ∧
          t4.output_data = t.output_data ∧ t4.parts = t.parts ∧
          t4.chunks = t.chunks) ∧
      (sk = false → t4.skipped_page = t.skipped_page ∧
          t4.offset_in_part = t.offset_in_part ∧
          t4.output_data = t.output_data ∧ t4.parts = t.parts ∧
          t4.chunks = t.chunks) := by
  intro filters
  induction filters with
  | nil =>
    intro t arrays count bitmaps t4 a4 sk c4 h
    unfold bloomLoop bloomFinish at h
    split at h
    · simp only [Except.ok.injEq, Prod.mk.injEq] at h
      obtain ⟨h1, -, h3, -⟩ := h
      subst h1
      subst h3
      exact ⟨fun hsk => absurd hsk (by decide), fun _ => ⟨rfl, rfl, rfl, rfl, rfl⟩⟩
    · simp only [Except.ok.injEq, Prod.mk.injEq] at h
      obtain ⟨h1, -, h3, -⟩ := h
      subst h1
      subst h3
      exact ⟨fun hsk => absurd hsk (by decide), fun _ => ⟨rfl, rfl, rfl, rfl, rfl⟩⟩
  | cons hd rest ih =>
    obtain ⟨idx, filter⟩ := hd
    intro t arrays count bitmaps t4 a4 sk c4 h
    unfold bloomLoop at h
    split at h
    · -- the probed column was already read
      dsimp only at h
      split at h
      · -- single all-empty bitmap: skip the page
        simp only [Except.ok.injEq, Prod.mk.injEq] at h
        obtain ⟨h1, -, h3, h4⟩ := h
        subst h1
        subst h3
        subst h4
        refine ⟨fun _ => ⟨rfl, Nat.le_add_right _ _, rfl, rfl, rfl, rfl⟩,
                fun hsk => absurd hsk (by decide)⟩
      · split at h
        · have hr := ih _ _ _ _ _ _ _ _ h
          exact hr
        · have hr := ih _ _ _ _ _ _ _ _ h
          exact hr
    · split at h
      · simp at h
      · split at h
        · simp at h
        · split at h
          · -- iterator exhausted: plain return
            simp only [Except.ok.injEq, Prod.mk.injEq] at h
            obtain ⟨h1, -, h3, h4⟩ := h
            subst h1
            subst h3
            subst h4
            exact ⟨fun hsk => absurd hsk (by decide),
                   fun _ => ⟨rfl, rfl, rfl, rfl, rfl⟩⟩
          · -- freshly decoded page
            dsimp only at h
            split at h
            · simp only [Except.ok.injEq, Prod.mk.injEq] at h
              obtain ⟨h1, -, h3, h4⟩ := h
              subst h1
              subst h3
              subst h4
              refine ⟨fun _ => ⟨rfl, Nat.le_add_right _ _, rfl, rfl, rfl, rfl⟩,
                      fun hsk => absurd hsk (by decide)⟩
            · split at h
              · have hr := ih _ _ _ _ _ _ _ _ h
                exact hr
              · have hr := ih _ _ _ _ _ _ _ _ h
                exact hr

/-- A Boolean list counts `false` at every position exactly when every entry
is `false`. -/
theorem count_false_eq_length_iff (l : List Bool) :
    (l.count false = l.length) ↔ l.all (fun x => !x) = true := by
  rw [List.count_eq_length, List.all_eq_true]
  constructor
  · intro h x hx
    rw [← h x hx]
    rfl
  · intro h b hb
    have hb2 := h b hb
    cases b with
    | false => rfl
    | true => exact absurd hb2 (by decide)

/-- The intersection-and-refine tail of `bloom_runtime_filter` for a non-empty
collection of probe bitmaps: fold the bitwise AND and apply it to the current
selection, installing the trivial always-true executor when none exists —
exactly the body of `bloomFinish` on a non-empty collection. -/
def bloomIntersect (feOpt : Option FilterExec) (count : Option Nat)
    (bm : List Bool) (rest : List (List Bool)) : FilterExec × Nat :=
  let rf := rest.foldl (fun acc b => List.zipWith and acc b) bm
  let fe :=
    match feOpt with
    | some fe => fe
    | none => dummyFilterExec
  match count with
  | some c => fe.selectBitmap c rf
  | none => fe.fromBitmap rf

/-- Exact characterization of the skip outcome of the per-filter loop: the
skipped-page counter rises by 1, the offset advances by exactly the probed
page's length, and some single filter's bitmap over that page is entirely
empty. -/
theorem bloomLoop_skip_exact :
    ∀ (filters : List (Nat × BloomFilter)) t arrays count bitmaps t4 a4 c4,
      bloomLoop t filters arrays count bitmaps = .ok (t4, a4, true, c4) →
      t4.skipped_page = t.skipped_page + 1 ∧ c4 = none ∧
      t4.output_data = t.output_data ∧ t4.parts = t.parts ∧
      t4.chunks = t.chunks ∧
      ∃ idx filt arr, (idx, filt) ∈ filters ∧ (idx, arr) ∈ a4 ∧
        t4.offset_in_part = t.offset_in_part + arr.length ∧
        (arr.map (fun v => bloomContains filt v)).all (fun x => !x) = true := by
  intro filters
  induction filters with
  | nil =>
    intro t arrays count bitmaps t4 a4 c4 h
    unfold bloomLoop bloomFinish at h
    split at h
    · simp only [Except.ok.injEq, Prod.mk.injEq] at h
      obtain ⟨-, -, h3, -⟩ := h
      exact absurd h3 (by decide)
    · simp only [Except.ok.injEq, Prod.mk.injEq] at h
      obtain ⟨-, -, h3, -⟩ := h
      exact absurd h3 (by decide)
  | cons hd rest ih =>
    obtain ⟨idx, filter⟩ := hd
    intro t arrays count bitmaps t4 a4 c4 h
    unfold bloomLoop at h
    split at h
    · rename_i hit hfind
      dsimp only at h
      split at h
      · rename_i hcond
        simp only [Except.ok.injEq, Prod.mk.injEq] at h
        obtain ⟨h1, h2, -, h4⟩ := h
        subst h1
        subst h2
        subst h4
        have hik : hit.1 = idx := by
          have hp := List.find?_some hfind
          simpa using hp
        refine ⟨rfl, rfl, rfl, rfl, rfl, idx, filter, hit.2,
          List.mem_cons_self _ _, ?_, rfl,
          (count_false_eq_length_iff _).mp hcond⟩
        have hmem := List.mem_of_find?_eq_some hfind
        rw [← hik]
        exact hmem
      · split at h
        · obtain ⟨hsk, hc4, hout, hpa, hch, idx2, filt2, arr2, hmf, hma, hoff, hbm⟩ :=
            ih _ _ _ _ _ _ _ h
          exact ⟨hsk, hc4, hout, hpa, hch, idx2, filt2, arr2,
            List.mem_cons_of_mem _ hmf, hma, hoff, hbm⟩
        · obtain ⟨hsk, hc4, hout, hpa, hch, idx2, filt2, arr2, hmf, hma, hoff, hbm⟩ :=
            ih _ _ _ _ _ _ _ h
          exact ⟨hsk, hc4, hout, hpa, hch, idx2, filt2, arr2,
            List.mem_cons_of_mem _ hmf, hma, hoff, hbm⟩
    · split at h
      · exact Except.noConfusion h
      · split at h
        · exact Except.noConfusion h
        · split at h
          · simp only [Except.ok.injEq, Prod.mk.injEq] at h
            obtain ⟨-, -, h3, -⟩ := h
            exact absurd h3 (by decide)
          · rename_i arr iters2 hdrop
            dsimp only at h
            split at h
            · rename_i hcond
              simp only [Except.ok.injEq, Prod.mk.injEq] at h
              obtain ⟨h1, h2, -, h4⟩ := h
              subst h1
              subst h4
              refine ⟨rfl, rfl, rfl, rfl, rfl, idx, filter, arr,
                List.mem_cons_self _ _, ?_, rfl,
                (count_false_eq_length_iff _).mp hcond⟩
              rw [← h2]
              exact List.mem_append_right _ (List.mem_cons_self _ _)
            · split at h
              · obtain ⟨hsk, hc4, hout, hpa, hch, idx2, filt2, arr2, hmf, hma, hoff, hbm⟩ :=
                  ih _ _ _ _ _ _ _ h
                exact ⟨hsk, hc4, hout, hpa, hch, idx2, filt2, arr2,
                  List.mem_cons_of_mem _ hmf, hma, hoff, hbm⟩
              · obtain ⟨hsk, hc4, hout, hpa, hch, idx2, filt2, arr2, hmf, hma, hoff, hbm⟩ :=
                  ih _ _ _ _ _ _ _ h
                exact ⟨hsk, hc4, hout, hpa, hch, idx2, filt2, arr2,
                  List.mem_cons_of_mem _ hmf, hma, hoff, hbm⟩

/-- Characterization of the non-skip outcome of the per-filter loop: some list
of collected bitmaps, none of them entirely empty, determines the result —
either nothing was collected and the executor and count pass through, or the
bitwise AND of the collection refines the selection via `bloomIntersect`. -/
theorem bloomLoop_noskip_char :
    ∀ (filters : List (Nat × BloomFilter)) t arrays count bitmaps t4 a4 c4,
      bloomLoop t filters arrays count bitmaps = .ok (t4, a4, false, c4) →
      (∀ bm ∈ bitmaps, bm.all (fun x => !x) = false) →
      ∃ bms, (∀ bm ∈ bms, bm.all (fun x => !x) = false) ∧
        ((bms = [] ∧ t4.filter_executor = t.filter_executor ∧ c4 = count) ∨
         (∃ bm rest2, bms = bm :: rest2 ∧
           t4.filter_executor =
             some (bloomIntersect t.filter_executor count bm rest2).1 ∧
           c4 = some (bloomIntersect t.filter_executor count bm rest2).2)) := by
  intro filters
  induction filters with
  | nil =>
    intro t arrays count bitmaps t4 a4 c4 h hbm
    unfold bloomLoop bloomFinish at h
    split at h
    · simp only [Except.ok.injEq, Prod.mk.injEq] at h
      obtain ⟨h1, -, -, h4⟩ := h
      subst h1
      subst h4
      exact ⟨[], by simp, Or.inl ⟨rfl, rfl, rfl⟩⟩
    · rename_i bm rest2
      dsimp only at h
      simp only [Except.ok.injEq, Prod.mk.injEq] at h
      obtain ⟨h1, -, -, h4⟩ := h
      subst h1
      subst h4
      refine ⟨bm :: rest2, hbm, Or.inr ⟨bm, rest2, rfl, ?_, ?_⟩⟩
      all_goals
        cases count <;> cases hfe2 : t.filter_executor <;>
          simp [bloomIntersect, hfe2]
  | cons hd rest ih =>
    obtain ⟨idx, filter⟩ := hd
    intro t arrays count bitmaps t4 a4 c4 h hbm
    unfold bloomLoop at h
    split at h
    · rename_i hit hfind
      dsimp only at h
      split at h
      · simp only [Except.ok.injEq, Prod.mk.injEq] at h
        obtain ⟨-, -, h3, -⟩ := h
        exact absurd h3 (by decide)
      · rename_i hcne
        split at h
        · have hhd : (hit.2.map fun v => bloomContains filter v).all
              (fun x => !x) = false := by
            cases hx : (hit.2.map fun v => bloomContains filter v).all
                (fun x => !x) with
            | false => rfl
            | true => exact absurd ((count_false_eq_length_iff _).mpr hx) hcne
          have hbm2 : ∀ bm ∈ bitmaps
              ++ [hit.2.map fun v => bloomContains filter v],
              bm.all (fun x => !x) = false := by
            intro bm hmem
            rcases List.mem_append.mp hmem with hm | hm
            · exact hbm bm hm
            · have hbmeq : bm = hit.2.map fun v => bloomContains filter v := by
                simpa using hm
              rw [hbmeq]
              exact hhd
          exact ih _ _ _ _ _ _ _ h hbm2
        · exact ih _ _ _ _ _ _ _ h hbm
    · split at h
      · exact Except.noConfusion h
      · split at h
        · exact Except.noConfusion h
        · split at h
          · simp only [Except.ok.injEq, Prod.mk.injEq] at h
            obtain ⟨h1, -, -, h4⟩ := h
            subst h1
            subst h4
            exact ⟨[], by simp, Or.inl ⟨rfl, rfl, rfl⟩⟩
          · rename_i arr iters2 hdrop
            dsimp only at h
            split at h
            · simp only [Except.ok.injEq, Prod.mk.injEq] at h
              obtain ⟨-, -, h3, -⟩ := h
              exact absurd h3 (by decide)
            · rename_i hcne
              split at h
              · have hhd : (arr.map fun v => bloomContains filter v).all
                    (fun x => !x) = false := by
                  cases hx : (arr.map fun v => bloomContains filter v).all
                      (fun x => !x) with
                  | false => rfl
                  | true =>
                    exact absurd ((count_false_eq_length_iff _).mpr hx) hcne
                have hbm2 : ∀ bm ∈ bitmaps
                    ++ [arr.map fun v => bloomContains filter v],
                    bm.all (fun x => !x) = false := by
                  intro bm hmem
                  rcases List.mem_append.mp hmem with hm | hm
                  · exact hbm bm hm
                  · have hbmeq : bm = arr.map fun v => bloomContains filter v := by
                      simpa using hm
                    rw [hbmeq]
                    exact hhd
                have hr := ih _ _ _ _ _ _ _ h hbm2
                exact hr
              · have hr := ih _ _ _ _ _ _ _ h hbm
                exact hr

/-- The skip outcome of `bloom_runtime_filter`, exactly: counter +1, offset
advanced by the probed page's rows, nothing staged, part retained, and a
witnessing filter of the resolved set whose bitmap over its probed page is
entirely empty. -/
theorem bloomRuntimeFilter_skip_exact (t : Transform)
    (arrays : List (Nat × Arr)) (count : Option Nat) (t4 : Transform)
    (a4 : List (Nat × Arr)) (c4 : Option Nat)
    (h : bloomRuntimeFilter t arrays count = .ok (t4, a4, true, c4)) :
    t4.skipped_page = t.skipped_page + 1 ∧ c4 = none ∧
    t4.output_data = t.output_data ∧ t4.parts = t.parts ∧
    t4.chunks = t.chunks ∧
    ∃ idx filt arr,
      (idx, filt) ∈ t.cached_bloom_runtime_filter.getD
          (t.ctx_bloom_filters.filterMap (fun f => f.1.map (fun i => (i, f.2)))) ∧
      (idx, arr) ∈ a4 ∧
      t4.offset_in_part = t.offset_in_part + arr.length ∧
      (arr.map (fun v => bloomContains filt v)).all (fun x => !x) = true := by
  unfold bloomRuntimeFilter at h
  split at h
  · rename_i fs heq
    obtain ⟨hsk, hc4, hout, hpa, hch, idx, filt, arr, hmf, hma, hoff, hall⟩ :=
      bloomLoop_skip_exact fs t arrays count [] t4 a4 c4 h
    refine ⟨hsk, hc4, hout, hpa, hch, idx, filt, arr, ?_, hma, hoff, hall⟩
    rw [heq]
    simpa using hmf
  · rename_i heq
    dsimp only at h
    split at h
    · simp only [Except.ok.injEq, Prod.mk.injEq] at h
      obtain ⟨-, -, h3, -⟩ := h
      exact absurd h3 (by decide)
    · obtain ⟨hsk, hc4, hout, hpa, hch, idx, filt, arr, hmf, hma, hoff, hall⟩ :=
        bloomLoop_skip_exact _ _ _ _ _ _ _ _ h
      refine ⟨hsk, hc4, hout, hpa, hch, idx, filt, arr, ?_, hma, hoff, hall⟩
      rw [heq]
      simpa using hmf

/-- The non-skip outcome of `bloom_runtime_filter`: the collected bitmaps
(none entirely empty) either were absent — executor and count untouched — or
their bitwise AND refines the selection. -/
theorem bloomRuntimeFilter_noskip_char (t : Transform)
    (arrays : List (Nat × Arr)) (count : Option Nat) (t4 : Transform)
    (a4 : List (Nat × Arr)) (c4 : Option Nat)
    (h : bloomRuntimeFilter t arrays count = .ok (t4, a4, false, c4)) :
    ∃ bms, (∀ bm ∈ bms, bm.all (fun x => !x) = false) ∧
      ((bms = [] ∧ t4.filter_executor = t.filter_executor ∧ c4 = count) ∨
       (∃ bm rest2, bms = bm :: rest2 ∧
         t4.filter_executor =
           some (bloomIntersect t.filter_executor count bm rest2).1 ∧
         c4 = some (bloomIntersect t.filter_executor count bm rest2).2)) := by
  unfold bloomRuntimeFilter at h
  split at h
  · exact bloomLoop_noskip_char _ _ _ _ _ _ _ _ h (by simp)
  · dsimp only at h
    split at h
    · simp only [Except.ok.injEq, Prod.mk.injEq] at h
      obtain ⟨h1, -, -, h4⟩ := h
      subst h1
      subst h4
      exact ⟨[], by simp, Or.inl ⟨rfl, rfl, rfl⟩⟩
    · have hr := bloomLoop_noskip_char _ _ _ _ _ _ _ _ h (by simp)
      exact hr

/-- C4 counterexample: two bloom filters on column 0 whose bitmaps are each
non-empty but intersect to the empty selection over the page `[1, 2]` — zero
rows are emitted and the offset advances by the page's 2 rows, but the
skipped-page counter stays 0, contradicting the claimed increment on an empty
intersection. -/
theorem bloom_empty_intersection_counterexample :
    (process cex4State).map
        (fun t => (t.skipped_page, t.output_data, t.offset_in_part, t.scan_rows))
      = .ok (0, none, 2, 0) := by rfl

/-- C4 amended: the bloom stage skips the page exactly when some single
filter's bitmap over its probed page is entirely empty: on the skip outcome
the skipped-page counter rises by exactly 1, the offset advances by exactly
that page's row count, nothing is staged and the part is retained, and a
witnessing filter with an all-empty bitmap is exhibited from the resolved
filter set.  On the non-skip outcome the counter, offset and output are
untouched and the collected bitmaps — none of them entirely empty — either
were absent (executor and count pass through) or have their bitwise AND
refine the row selection via `bloomIntersect`, which installs a trivial
always-true filter executor first when no prewhere predicate existed.  An
intersection that is empty without any single empty bitmap therefore yields a
zero-row selection (no block emitted) but no skipped-page increment. -/
theorem bloom_runtime_filter_amended :
    (∀ (t : Transform) arrays count t4 a4 c4,
        bloomRuntimeFilter t arrays count = .ok (t4, a4, true, c4) →
        t4.skipped_page = t.skipped_page + 1 ∧ c4 = none ∧
        t4.output_data = t.output_data ∧ t4.parts = t.parts ∧
        t4.chunks = t.chunks ∧
        ∃ idx filt arr,
          (idx, filt) ∈ t.cached_bloom_runtime_filter.getD
              (t.ctx_bloom_filters.filterMap
                (fun f => f.1.map (fun i => (i, f.2)))) ∧
          (idx, arr) ∈ a4 ∧
          t4.offset_in_part = t.offset_in_part + arr.length ∧
          (arr.map (fun v => bloomContains filt v)).all (fun x => !x) = true) ∧
    (∀ (t : Transform) arrays count t4 a4 c4,
        bloomRuntimeFilter t arrays count = .ok (t4, a4, false, c4) →
        (t4.skipped_page = t.skipped_page ∧
         t4.offset_in_part = t.offset_in_part ∧
         t4.output_data = t.output_data ∧ t4.parts = t.parts ∧
         t4.chunks = t.chunks) ∧
        ∃ bms, (∀ bm ∈ bms, bm.all (fun x => !x) = false) ∧
          ((bms = [] ∧ t4.filter_executor = t.filter_executor ∧ c4 = count) ∨
           (∃ bm rest2, bms = bm :: rest2 ∧
             t4.filter_executor =
               some (bloomIntersect t.filter_executor count bm rest2).1 ∧
             c4 = some (bloomIntersect t.filter_executor count bm rest2).2))) := by
  constructor
  · intro t arrays count t4 a4 c4 h
    exact bloomRuntimeFilter_skip_exact t arrays count t4 a4 c4 h
  · intro t arrays count t4 a4 c4 h
    refine ⟨?_, bloomRuntimeFilter_noskip_char t arrays count t4 a4 c4 h⟩
    unfold bloomRuntimeFilter at h
    split at h
    · exact (bloomLoop_skip_props _ _ _ _ _ _ _ _ _ h).2 rfl
    · dsimp only at h
      split at h
      · simp only [Except.ok.injEq, Prod.mk.injEq] at h
        obtain ⟨h1, -, -, -⟩ := h
        subst h1
        exact ⟨rfl, rfl, rfl, rfl, rfl⟩
      · exact (bloomLoop_skip_props _ _ _ _ _ _ _ _ _ h).2 rfl

/-- A state whose single cached-to-be bloom filter rejects every row of the
probed page. -/
def w4Skip : Transform :=
  { baseT with ctx_bloom_filters := [(some 0, [.int 9])] }

/-- Witness for the amended C4: a filter rejecting the whole page yields the
skip outcome with the counter incremented, the offset advanced by the page's
2 rows and an all-empty witnessing bitmap; the two-filter empty-intersection
state yields the non-skip outcome with the counter untouched. -/
theorem bloom_runtime_filter_amended_witness :
    (∃ t4 a4 c4,
        bloomRuntimeFilter w4Skip [(0, [.int 1, .int 2])] none
          = .ok (t4, a4, true, c4) ∧
        t4.skipped_page = w4Skip.skipped_page + 1 ∧ c4 = none ∧
        ∃ idx filt arr, (idx, arr) ∈ a4 ∧
          t4.offset_in_part = w4Skip.offset_in_part + arr.length ∧
          (arr.map (fun v => bloomContains filt v)).all (fun x => !x) = true) ∧
    (∃ t4 a4 c4,
        bloomRuntimeFilter cex4State [(0, [.int 1, .int 2])] none
          = .ok (t4, a4, false, c4) ∧
        t4.skipped_page = cex4State.skipped_page) := by
  constructor
  · refine ⟨_, _, _, rfl, ?_, ?_, ?_⟩
    · exact (bloom_runtime_filter_amended.1 w4Skip [(0, [.int 1, .int 2])] none
        _ _ _ rfl).1
    · exact (bloom_runtime_filter_amended.1 w4Skip [(0, [.int 1, .int 2])] none
        _ _ _ rfl).2.1
    · obtain ⟨-, -, -, -, -, idx, filt, arr, -, hma, hoff, hbm⟩ :=
        bloom_runtime_filter_amended.1 w4Skip [(0, [.int 1, .int 2])] none
          _ _ _ rfl
      exact ⟨idx, filt, arr, hma, hoff, hbm⟩
  · refine ⟨_, _, _, rfl, ?_⟩
    exact ((bloom_runtime_filter_amended.2 cex4State [(0, [.int 1, .int 2])] none
      _ _ _ rfl).1).1

/-! ### Preservation lemmas for the pipeline stages -/

/-- The instrumentation/caching fields no stage except `check_default_values`
and the bloom resolution may touch. -/
def AuxEq (t t2 : Transform) : Prop :=
  t2.default_checks = t.default_checks ∧
  t2.bloom_provider_calls = t.bloom_provider_calls ∧
  t2.cached_bloom_runtime_filter = t.cached_bloom_runtime_filter

/-- The part queue lost its front element. -/
def PoppedPart (t t2 : Transform) : Prop :=
  ∃ p ps, t.parts = p :: ps ∧ t2.parts = ps

theorem addBlock_aux (t : Transform) (b : DataBlock) :
    AuxEq t (addBlock t b) ∧ (addBlock t b).parts = t.parts ∧
    (addBlock t b).chunks = t.chunks ∧ (addBlock t b).inited = t.inited ∧
    (addBlock t b).offset_in_part = t.offset_in_part ∧
    (addBlock t b).skipped_page = t.skipped_page := by
  unfold addBlock AuxEq
  split
  · exact ⟨⟨rfl, rfl, rfl⟩, rfl, rfl, rfl, rfl, rfl⟩
  · exact ⟨⟨rfl, rfl, rfl⟩, rfl, rfl, rfl, rfl, rfl⟩

theorem stepTopK_inl_cases (t t1 : Transform)
    (h : stepTopK t = .ok (.inl t1)) :
    AuxEq t t1 ∧
    ((t1.parts = t.parts ∧ t1.chunks = t.chunks ∧ t1.inited = t.inited ∧
        t.offset_in_part ≤ t1.offset_in_part) ∨ PoppedPart t t1) := by
  unfold stepTopK at h
  split at h
  · split at h
    · split at h
      · split at h
        · split at h
          · simp only [Except.ok.injEq, Sum.inl.injEq] at h
            subst h
            exact ⟨⟨rfl, rfl, rfl⟩,
              Or.inl ⟨rfl, rfl, rfl, Nat.le_add_right _ _⟩⟩
          · simp at h
        · cases hf : finishProcess t with
          | error e => rw [hf] at h; simp [Except.map] at h
          | ok v =>
            rw [hf] at h
            simp only [Except.map, Except.ok.injEq, Sum.inl.injEq] at h
            subst h
            obtain ⟨p, ps, hp, hv⟩ := finishProcess_ok t v hf
            subst hv
            exact ⟨⟨rfl, rfl, rfl⟩, Or.inr ⟨p, ps, hp, rfl⟩⟩
      · simp at h
    · simp at h
  · simp at h

theorem readCols_inl (cols : List Nat) (pw : Bool) :
    ∀ t arrays defaults nf t1,
      readCols cols pw t arrays defaults nf = .ok (.inl t1) →
      AuxEq t t1 ∧ PoppedPart t t1 := by
  induction cols with
  | nil =>
    intro t arrays defaults nf t1 h
    simp [readCols] at h
  | cons i rest ih =>
    intro t arrays defaults nf t1 h
    unfold readCols at h
    split at h
    · exact ih _ _ _ _ _ h
    · split at h
      · split at h
        · simp at h
        · split at h
          · have hr := ih _ _ _ _ _ h
            exact hr
          · cases hf : finishProcess t with
            | error e => rw [hf] at h; simp [Except.map] at h
            | ok v =>
              rw [hf] at h
              simp only [Except.map, Except.ok.injEq, Sum.inl.injEq] at h
              subst h
              obtain ⟨p, ps, hp, hv⟩ := finishProcess_ok t v hf
              subst hv
              exact ⟨⟨rfl, rfl, rfl⟩, ⟨p, ps, hp, rfl⟩⟩
      · split at h
        · exact ih _ _ _ _ _ h
        · exact ih _ _ _ _ _ h

theorem stepPrewhereFilter_cases (t : Transform) (arrays : List (Nat × Arr))
    (defaults : List Nat) (r : Transform ⊕ (Transform × Option Nat))
    (h : stepPrewhereFilter t arrays defaults = .ok r) :
    (∀ t1 c, r = .inr (t1, c) → AuxEq t t1 ∧ t1.parts = t.parts ∧
        t1.chunks = t.chunks ∧ t1.inited = t.inited ∧
        t1.offset_in_part = t.offset_in_part) ∧
    (∀ t1, r = .inl t1 → AuxEq t t1 ∧ t1.parts = t.parts ∧
        t1.chunks = t.chunks ∧ t1.inited = t.inited ∧
        t.offset_in_part ≤ t1.offset_in_part) := by
  unfold stepPrewhereFilter at h
  split at h
  · simp only [Except.ok.injEq] at h
    subst h
    refine ⟨fun t1 c hr => ?_, fun t1 hr => ?_⟩
    · simp only [Sum.inr.injEq, Prod.mk.injEq] at hr
      obtain ⟨hr1, -⟩ := hr
      subst hr1
      exact ⟨⟨rfl, rfl, rfl⟩, rfl, rfl, rfl, rfl⟩
    · simp at hr
  · split at h
    · simp only [Except.ok.injEq] at h
      subst h
      refine ⟨fun t1 c hr => ?_, fun t1 hr => ?_⟩
      · simp only [Sum.inr.injEq, Prod.mk.injEq] at hr
        obtain ⟨hr1, -⟩ := hr
        subst hr1
        exact ⟨⟨rfl, rfl, rfl⟩, rfl, rfl, rfl, rfl⟩
      · simp at hr
    · dsimp only at h
      split at h
      · simp at h
      · split at h
        · simp at h
        · split at h
          · -- zero matches: skip the page
            simp only [Except.ok.injEq] at h
            subst h
            refine ⟨fun t1 c hr => ?_, fun t1 hr => ?_⟩
            · simp at hr
            · simp only [Sum.inl.injEq] at hr
              subst hr
              exact ⟨⟨rfl, rfl, rfl⟩, rfl, rfl, rfl, Nat.le_add_right _ _⟩
          · split at h
            · split at h
              · simp only [Except.ok.injEq] at h
                subst h
                refine ⟨fun t1 c hr => ?_, fun t1 hr => ?_⟩
                · simp at hr
                · simp only [Sum.inl.injEq] at hr
                  subst hr
                  exact ⟨⟨rfl, rfl, rfl⟩, rfl, rfl, rfl, Nat.le_add_right _ _⟩
              · simp only [Except.ok.injEq] at h
                subst h
                refine ⟨fun t1 c hr => ?_, fun t1 hr => ?_⟩
                · simp only [Sum.inr.injEq, Prod.mk.injEq] at hr
                  obtain ⟨hr1, -⟩ := hr
                  subst hr1
                  exact ⟨⟨rfl, rfl, rfl⟩, rfl, rfl, rfl, rfl⟩
                · simp at hr
            · simp only [Except.ok.injEq] at h
              subst h
              refine ⟨fun t1 c hr => ?_, fun t1 hr => ?_⟩
              · simp only [Sum.inr.injEq, Prod.mk.injEq] at hr
                obtain ⟨hr1, -⟩ := hr
                subst hr1
                exact ⟨⟨rfl, rfl, rfl⟩, rfl, rfl, rfl, rfl⟩
              · simp at hr

theorem bloomLoop_aux :
    ∀ (filters : List (Nat × BloomFilter)) t arrays count bitmaps t4 a4 sk c4,
      bloomLoop t filters arrays count bitmaps = .ok (t4, a4, sk, c4) →
      AuxEq t t4 ∧ t4.inited = t.inited ∧
      t.offset_in_part ≤ t4.offset_in_part := by
  intro filters
  induction filters with
  | nil =>
    intro t arrays count bitmaps t4 a4 sk c4 h
    unfold bloomLoop bloomFinish at h
    split at h
    · simp only [Except.ok.injEq, Prod.mk.injEq] at h
      obtain ⟨h1, -⟩ := h
      subst h1
      exact ⟨⟨rfl, rfl, rfl⟩, rfl, Nat.le_refl _⟩
    · simp only [Except.ok.injEq, Prod.mk.injEq] at h
      obtain ⟨h1, -⟩ := h
      subst h1
      exact ⟨⟨rfl, rfl, rfl⟩, rfl, Nat.le_refl _⟩
  | cons hd rest ih =>
    obtain ⟨idx, filter⟩ := hd
    intro t arrays count bitmaps t4 a4 sk c4 h
    unfold bloomLoop at h
    split at h
    · dsimp only at h
      split at h
      · simp only [Except.ok.injEq, Prod.mk.injEq] at h
        obtain ⟨h1, -⟩ := h
        subst h1
        exact ⟨⟨rfl, rfl, rfl⟩, rfl, Nat.le_add_right _ _⟩
      · split at h
        · have hr := ih _ _ _ _ _ _ _ _ h
          exact hr
        · have hr := ih _ _ _ _ _ _ _ _ h
          exact hr
    · split at h
      · simp at h
      · split at h
        · simp at h
        · split at h
          · simp only [Except.ok.injEq, Prod.mk.injEq] at h
            obtain ⟨h1, -⟩ := h
            subst h1
            exact ⟨⟨rfl, rfl, rfl⟩, rfl, Nat.le_refl _⟩
          · dsimp only at h
            split at h
            · simp only [Except.ok.injEq, Prod.mk.injEq] at h
              obtain ⟨h1, -⟩ := h
              subst h1
              exact ⟨⟨rfl, rfl, rfl⟩, rfl, Nat.le_add_right _ _⟩
            · split at h
              · have hr := ih _ _ _ _ _ _ _ _ h
                exact hr
              · have hr := ih _ _ _ _ _ _ _ _ h
                exact hr

theorem bloomRuntimeFilter_master (t : Transform) (arrays : List (Nat × Arr))
    (count : Option Nat) (t4 : Transform) (a4 : List (Nat × Arr)) (sk : Bool)
    (c4 : Option Nat)
    (h : bloomRuntimeFilter t arrays count = .ok (t4, a4, sk, c4)) :
    t4.default_checks = t.default_checks ∧ t4.inited = t.inited ∧
    t.offset_in_part ≤ t4.offset_in_part ∧
    t4.bloom_provider_calls ≤ t.bloom_provider_calls + 1 ∧
    (∀ fs, t.cached_bloom_runtime_filter = some fs →
        t4.cached_bloom_runtime_filter = some fs ∧
        t4.bloom_provider_calls = t.bloom_provider_calls) ∧
    t4.parts = t.parts ∧ t4.chunks = t.chunks := by
  have hpc : ∀ (u : Transform) fs arrays2 count2 bms,
      bloomLoop u fs arrays2 count2 bms = .ok (t4, a4, sk, c4) →
      t4.parts = u.parts ∧ t4.chunks = u.chunks := by
    intro u fs arrays2 count2 bms h2
    have hs := bloomLoop_skip_props fs u arrays2 count2 bms t4 a4 sk c4 h2
    cases sk with
    | true =>
      obtain ⟨-, -, -, -, hp, hc⟩ := hs.1 rfl
      exact ⟨hp, hc⟩
    | false =>
      obtain ⟨-, -, -, hp, hc⟩ := hs.2 rfl
      exact ⟨hp, hc⟩
  unfold bloomRuntimeFilter at h
  split at h
  · rename_i fs0 heq
    have ha := bloomLoop_aux _ _ _ _ _ _ _ _ _ h
    have hp := hpc _ _ _ _ _ h
    refine ⟨ha.1.1, ha.2.1, ha.2.2, ?_, ?_, hp.1, hp.2⟩
    · rw [ha.1.2.1]; exact Nat.le_succ _
    · intro fs hfs
      rw [heq] at hfs
      rw [ha.1.2.2, ha.1.2.1, heq]
      exact ⟨hfs, rfl⟩
  · rename_i heq
    dsimp only at h
    split at h
    · simp only [Except.ok.injEq, Prod.mk.injEq] at h
      obtain ⟨h1, -⟩ := h
      subst h1
      refine ⟨rfl, rfl, Nat.le_refl _, Nat.le_refl _, ?_, rfl, rfl⟩
      intro fs hfs
      rw [heq] at hfs
      exact absurd hfs (by simp)
    · have ha := bloomLoop_aux _ _ _ _ _ _ _ _ _ h
      have hp := hpc _ _ _ _ _ h
      refine ⟨ha.1.1, ha.2.1, ha.2.2, ?_, ?_, hp.1, hp.2⟩
      · rw [ha.1.2.1]
      · intro fs hfs
        rw [heq] at hfs
        exact absurd hfs (by simp)

theorem emitBlock_aux (t : Transform) (arrays : List (Nat × Arr)) (nf : Bool)
    (fc : Option Nat) (t2 : Transform)
    (h : emitBlock t arrays nf fc = .ok t2) :
    AuxEq t t2 ∧ t2.parts = t.parts ∧ t2.chunks = t.chunks ∧
    t2.inited = t.inited ∧ t.offset_in_part ≤ t2.offset_in_part := by
  unfold emitBlock at h
  dsimp only at h
  repeat split at h
  all_goals
    first
    | exact Except.noConfusion h
    | (simp only [Except.ok.injEq] at h
       subst h
       refine ⟨(addBlock_aux _ _).1, (addBlock_aux _ _).2.1,
              (addBlock_aux _ _).2.2.1, (addBlock_aux _ _).2.2.2.1, ?_⟩
       rw [(addBlock_aux _ _).2.2.2.2.1]
       exact Nat.le_add_right _ _)

/-- Master preservation lemma for one page step: the default-check counter is
untouched, the bloom provider is consulted at most once (never when a filter
set is cached), the part offset never decreases while the part is retained,
and the part queue either stays or loses exactly its front. -/
theorem pageStep_master (t t2 : Transform) (h : pageStep t = .ok t2) :
    t2.default_checks = t.default_checks ∧
    t2.bloom_provider_calls ≤ t.bloom_provider_calls + 1 ∧
    (∀ fs, t.cached_bloom_runtime_filter = some fs →
        t2.cached_bloom_runtime_filter = some fs ∧
        t2.bloom_provider_calls = t.bloom_provider_calls) ∧
    (t2.parts = t.parts → t.offset_in_part ≤ t2.offset_in_part) ∧
    (t2.parts = t.parts ∨ PoppedPart t t2) := by
  unfold pageStep at h
  dsimp only at h
  split at h
  · exact Except.noConfusion h
  · -- the top-K pre-check ended the step
    rename_i tr heq1
    simp only [Except.ok.injEq] at h
    subst h
    obtain ⟨⟨hdc, hbc, hcb⟩, hor⟩ := stepTopK_inl_cases _ _ heq1
    refine ⟨hdc, ?_, ?_, ?_, ?_⟩
    · rw [hbc]; exact Nat.le_succ _
    · intro fs hfs
      refine ⟨?_, ?_⟩
      · rw [hcb]; exact hfs
      · rw [hbc]
    · intro hpp
      rcases hor with ⟨-, -, -, hoff⟩ | ⟨p, ps, hp1, hp2⟩
      · exact hoff
      · exfalso
        rw [hp2] at hpp
        have hp1t : t.parts = p :: ps := hp1
        rw [hp1t] at hpp
        exact List.cons_ne_self p ps hpp.symm
    · rcases hor with ⟨hp, -⟩ | hpop
      · exact Or.inl hp
      · obtain ⟨p, ps, hp1, hp2⟩ := hpop
        exact Or.inr ⟨p, ps, hp1, hp2⟩
  · -- the top-K pre-check passed
    rename_i t1 a1 heq1
    have hf1 := stepTopK_inr_frame _ _ _ heq1
    split at h
    · exact Except.noConfusion h
    · -- the prewhere read loop ended the part
      rename_i tr heq2
      simp only [Except.ok.injEq] at h
      subst h
      have hc := readCols_inl _ _ _ _ _ _ _ heq2
      rw [hf1] at hc
      obtain ⟨⟨hdc, hbc, hcb⟩, ⟨p, ps, hp1, hp2⟩⟩ := hc
      refine ⟨hdc, ?_, ?_, ?_, ?_⟩
      · rw [hbc]; exact Nat.le_succ _
      · intro fs hfs
        refine ⟨?_, ?_⟩
        · rw [hcb]; exact hfs
        · rw [hbc]
      · intro hpp
        exfalso
        rw [hp2] at hpp
        have hp1t : t.parts = p :: ps := hp1
        rw [hp1t] at hpp
        exact List.cons_ne_self p ps hpp.symm
      · exact Or.inr ⟨p, ps, hp1, hp2⟩
    · -- the prewhere columns were read
      rename_i t2p arrays2 defaults2 nf2 heq2
      have hf2 := readCols_inr_frame _ _ _ _ _ _ _ _ _ _ heq2
      split at h
      · exact Except.noConfusion h
      · -- the prewhere filter skipped the page
        rename_i tr heq3
        simp only [Except.ok.injEq] at h
        subst h
        have hc := (stepPrewhereFilter_cases _ _ _ _ heq3).2 tr rfl
        rw [hf2] at hc
        rw [hf1] at hc
        obtain ⟨⟨hdc, hbc, hcb⟩, hpa, -, -, hoff⟩ := hc
        refine ⟨hdc, ?_, ?_, fun _ => hoff, Or.inl hpa⟩
        · rw [hbc]; exact Nat.le_succ _
        · intro fs hfs
          refine ⟨?_, ?_⟩
          · rw [hcb]; exact hfs
          · rw [hbc]
      · -- the prewhere filter passed
        rename_i t3 count3 heq3
        have hc3 := (stepPrewhereFilter_cases _ _ _ _ heq3).1 t3 count3 rfl
        rw [hf2] at hc3
        rw [hf1] at hc3
        obtain ⟨⟨e3dc, e3bc, e3cb⟩, e3pa, e3ch, -, e3off⟩ := hc3
        have e3dct : t3.default_checks = t.default_checks := e3dc
        have e3bct : t3.bloom_provider_calls = t.bloom_provider_calls := e3bc
        have e3cbt : t3.cached_bloom_runtime_filter = t.cached_bloom_runtime_filter := e3cb
        have e3pat : t3.parts = t.parts := e3pa
        have e3offt : t3.offset_in_part = t.offset_in_part := e3off
        split at h
        · exact Except.noConfusion h
        · rename_i t4 arrays4 sk4 count4 heq4
          obtain ⟨b4dc, -, b4off, b4bc, b4cb, b4pa, -⟩ :=
            bloomRuntimeFilter_master _ _ _ _ _ _ _ heq4
          split at h
          · -- the bloom stage skipped the page
            simp only [Except.ok.injEq] at h
            subst h
            refine ⟨?_, ?_, ?_, ?_, ?_⟩
            · rw [b4dc, e3dct]
            · rw [e3bct] at b4bc; exact b4bc
            · intro fs hfs
              rw [← e3cbt] at hfs
              obtain ⟨hcc, hbb⟩ := b4cb fs hfs
              exact ⟨hcc, by rw [hbb, e3bct]⟩
            · intro hpp
              calc t.offset_in_part = t3.offset_in_part := e3offt.symm
                _ ≤ t4.offset_in_part := b4off
            · exact Or.inl (by rw [b4pa, e3pat])
          · -- the remaining columns
            split at h
            · exact Except.noConfusion h
            · -- remain read loop ended the part
              rename_i tr heq5
              simp only [Except.ok.injEq] at h
              subst h
              obtain ⟨⟨hdc, hbc, hcb⟩, ⟨p, ps, hp1, hp2⟩⟩ :=
                readCols_inl _ _ _ _ _ _ _ heq5
              have hp1t : t.parts = p :: ps := by rw [← e3pat, ← b4pa]; exact hp1
              refine ⟨?_, ?_, ?_, ?_, ?_⟩
              · rw [hdc, b4dc, e3dct]
              · rw [hbc]; rw [e3bct] at b4bc; exact b4bc
              · intro fs hfs
                rw [← e3cbt] at hfs
                obtain ⟨hcc, hbb⟩ := b4cb fs hfs
                exact ⟨by rw [hcb]; exact hcc, by rw [hbc, hbb, e3bct]⟩
              · intro hpp
                exfalso
                rw [hp2, hp1t] at hpp
                exact List.cons_ne_self p ps hpp.symm
              · exact Or.inr ⟨p, ps, hp1t, hp2⟩
            · -- emit
              rename_i t5 arrays5 d5 nf5 heq5
              have hf5 := readCols_inr_frame _ _ _ _ _ _ _ _ _ _ heq5
              have he := emitBlock_aux _ _ _ _ _ h
              rw [hf5] at he
              obtain ⟨⟨hdc, hbc, hcb⟩, hpa, -, -, hoff⟩ := he
              refine ⟨?_, ?_, ?_, ?_, ?_⟩
              · rw [hdc, b4dc, e3dct]
              · rw [hbc]; rw [e3bct] at b4bc; exact b4bc
              · intro fs hfs
                rw [← e3cbt] at hfs
                obtain ⟨hcc, hbb⟩ := b4cb fs hfs
                exact ⟨by rw [hcb]; exact hcc, by rw [hbc, hbb, e3bct]⟩
              · intro hpp
                calc t.offset_in_part = t3.offset_in_part := e3offt.symm
                  _ ≤ t4.offset_in_part := b4off
                  _ ≤ t2.offset_in_part := hoff
              · exact Or.inl (by rw [hpa, b4pa, e3pat])

/-- `initColsLoop` changes only the iterator, skip-page and read-column-id
fields. -/
theorem initColsLoop_frame :
    ∀ (idxs : List Nat) (t : Transform) (data : ChunkData) (hasDef : Bool),
      (initColsLoop t data idxs hasDef).1 =
        { t with
          array_iters := (initColsLoop t data idxs hasDef).1.array_iters,
          array_skip_pages := (initColsLoop t data idxs hasDef).1.array_skip_pages,
          read_column_ids := (initColsLoop t data idxs hasDef).1.read_column_ids } := by
  intro idxs
  induction idxs with
  | nil => intro t data hasDef; rfl
  | cons i rest ih =>
    intro t data hasDef
    unfold initColsLoop
    dsimp only
    split
    · exact ih t data true
    · have hr := ih
        { t with
          array_iters := ainsert t.array_iters i ((alookup data i).getD []),
          array_skip_pages := ainsert t.array_skip_pages i 0,
          read_column_ids := t.read_column_ids ++ [i] } data hasDef
      exact hr

/-- `initVirtLoop` changes only the iterator and skip-page fields. -/
theorem initVirtLoop_frame :
    ∀ (vs : List Nat) (t : Transform) (data : ChunkData) (j : Nat),
      initVirtLoop t data vs j =
        { t with
          array_iters := (initVirtLoop t data vs j).array_iters,
          array_skip_pages := (initVirtLoop t data vs j).array_skip_pages } := by
  intro vs
  induction vs with
  | nil => intro t data j; rfl
  | cons v rest ih =>
    intro t data j
    unfold initVirtLoop
    dsimp only
    split
    · rename_i readers heq
      have hr := ih
        { t with
          array_iters := ainsert t.array_iters v readers,
          array_skip_pages := ainsert t.array_skip_pages v 0 } data (j + 1)
      exact hr
    · exact ih t data (j + 1)

/-- The core default-values check touches only `top_k`. -/
theorem checkDefaultValuesCore_frame (u tD : Transform) (b : Bool)
    (h : checkDefaultValuesCore u = .ok (tD, b)) :
    tD = { u with top_k := tD.top_k } := by
  unfold checkDefaultValuesCore at h
  split at h
  · simp only [Except.ok.injEq, Prod.mk.injEq] at h
    obtain ⟨h1, -⟩ := h
    subst h1
    rfl
  · split at h
    · simp only [Except.ok.injEq, Prod.mk.injEq] at h
      obtain ⟨h1, -⟩ := h
      subst h1
      rfl
    · split at h
      · split at h
        · exact Except.noConfusion h
        · split at h
          · simp only [Except.ok.injEq, Prod.mk.injEq] at h
            obtain ⟨h1, -⟩ := h
            subst h1
            rfl
          · split at h
            · split at h
              · split at h
                · exact Except.noConfusion h
                · simp only [Except.ok.injEq, Prod.mk.injEq] at h
                  obtain ⟨h1, -⟩ := h
                  subst h1
                  rfl
              · simp only [Except.ok.injEq, Prod.mk.injEq] at h
                obtain ⟨h1, -⟩ := h
                subst h1
                rfl
            · simp only [Except.ok.injEq, Prod.mk.injEq] at h
              obtain ⟨h1, -⟩ := h
              subst h1
              rfl
      · simp only [Except.ok.injEq, Prod.mk.injEq] at h
        obtain ⟨h1, -⟩ := h
        subst h1
        rfl

/-- `check_default_values` touches only `top_k` and the check counter, which
it increments by exactly one. -/
theorem checkDefaultValues_frame (t0 tD : Transform) (b : Bool)
    (h : checkDefaultValues t0 = .ok (tD, b)) :
    tD = { t0 with top_k := tD.top_k,
                   default_checks := t0.default_checks + 1 } := by
  unfold checkDefaultValues at h
  have hr := checkDefaultValuesCore_frame _ _ _ h
  exact hr

theorem finishProcessWithDefaultValues_aux (t t2 : Transform)
    (h : finishProcessWithDefaultValues t = .ok t2) :
    AuxEq t t2 ∧ PoppedPart t t2 := by
  unfold finishProcessWithDefaultValues at h
  split at h
  · exact Except.noConfusion h
  · rename_i p ps heq
    dsimp only at h
    simp only [Except.ok.injEq] at h
    subst h
    refine ⟨(addBlock_aux _ _).1, p, ps, heq, ?_⟩
    exact (addBlock_aux _ _).2.1

theorem finishProcessWithEmptyBlock_aux (t t2 : Transform)
    (h : finishProcessWithEmptyBlock t = .ok t2) :
    AuxEq t t2 ∧ PoppedPart t t2 := by
  unfold finishProcessWithEmptyBlock at h
  split at h
  · exact Except.noConfusion h
  · rename_i p ps heq
    dsimp only at h
    simp only [Except.ok.injEq] at h
    subst h
    refine ⟨(addBlock_aux _ _).1, p, ps, heq, ?_⟩
    exact (addBlock_aux _ _).2.1

/-- Field projections preserved by `initColumns`. -/
theorem initColumns_proj (u : Transform) (dd : ChunkData) :
    (initColumns u dd).1.bloom_provider_calls = u.bloom_provider_calls ∧
    (initColumns u dd).1.cached_bloom_runtime_filter = u.cached_bloom_runtime_filter ∧
    (initColumns u dd).1.parts = u.parts ∧
    (initColumns u dd).1.chunks = u.chunks ∧
    (initColumns u dd).1.default_checks = u.default_checks ∧
    (initColumns u dd).1.output_data = u.output_data ∧
    (initColumns u dd).1.skipped_page = u.skipped_page ∧
    (initColumns u dd).1.scan_rows = u.scan_rows ∧
    (initColumns u dd).1.scan_bytes = u.scan_bytes ∧
    (initColumns u dd).1.top_k = u.top_k ∧
    (initColumns u dd).1.offset_in_part = u.offset_in_part ∧
    (initColumns u dd).1.prewhere_filter = u.prewhere_filter ∧
    (initColumns u dd).1.prewhere_columns = u.prewhere_columns ∧
    (initColumns u dd).1.num_cols = u.num_cols ∧
    (initColumns u dd).1.virtual_columns = u.virtual_columns ∧
    (initColumns u dd).1.output_columns = u.output_columns ∧
    (initColumns u dd).1.default_vals = u.default_vals := by
  unfold initColumns
  rw [initColsLoop_frame (List.range u.num_cols) u dd false]
  exact ⟨rfl, rfl, rfl, rfl, rfl, rfl, rfl, rfl, rfl, rfl, rfl, rfl, rfl, rfl,
    rfl, rfl, rfl⟩

/-- Field projections preserved by `initVirtualIters`. -/
theorem initVirtualIters_proj (u : Transform) (dd : ChunkData) :
    (initVirtualIters u dd).bloom_provider_calls = u.bloom_provider_calls ∧
    (initVirtualIters u dd).cached_bloom_runtime_filter = u.cached_bloom_runtime_filter ∧
    (initVirtualIters u dd).parts = u.parts ∧
    (initVirtualIters u dd).chunks = u.chunks ∧
    (initVirtualIters u dd).default_checks = u.default_checks ∧
    (initVirtualIters u dd).output_data = u.output_data ∧
    (initVirtualIters u dd).skipped_page = u.skipped_page ∧
    (initVirtualIters u dd).scan_rows = u.scan_rows ∧
    (initVirtualIters u dd).scan_bytes = u.scan_bytes ∧
    (initVirtualIters u dd).top_k = u.top_k ∧
    (initVirtualIters u dd).offset_in_part = u.offset_in_part ∧
    (initVirtualIters u dd).prewhere_filter = u.prewhere_filter ∧
    (initVirtualIters u dd).prewhere_columns = u.prewhere_columns ∧
    (initVirtualIters u dd).num_cols = u.num_cols ∧
    (initVirtualIters u dd).virtual_columns = u.virtual_columns ∧
    (initVirtualIters u dd).output_columns = u.output_columns ∧
    (initVirtualIters u dd).default_vals = u.default_vals := by
  unfold initVirtualIters
  split
  · exact ⟨rfl, rfl, rfl, rfl, rfl, rfl, rfl, rfl, rfl, rfl, rfl, rfl, rfl, rfl,
      rfl, rfl, rfl⟩
  · rename_i vs heq
    rw [initVirtLoop_frame vs u dd 0]
    exact ⟨rfl, rfl, rfl, rfl, rfl, rfl, rfl, rfl, rfl, rfl, rfl, rfl, rfl, rfl,
      rfl, rfl, rfl⟩

/-- `initPart` never touches the bloom-provider instrumentation or cache. -/
theorem initPart_aux (t : Transform) (data : ChunkData)
    (r : Transform ⊕ Transform) (h : initPart t data = .ok r) :
    (∀ tr, r = .inl tr → tr.bloom_provider_calls = t.bloom_provider_calls ∧
        tr.cached_bloom_runtime_filter = t.cached_bloom_runtime_filter) ∧
    (∀ tr, r = .inr tr → tr.bloom_provider_calls = t.bloom_provider_calls ∧
        tr.cached_bloom_runtime_filter = t.cached_bloom_runtime_filter) := by
  unfold initPart at h
  split at h
  · exact Except.noConfusion h
  · rename_i p tl heqp
    dsimp only at h
    have eAR := applyRange_proj t p
    split at h
    · -- part-level top-K skip
      cases hf : finishProcess (applyRange t p) with
      | error e => rw [hf] at h; simp [Except.map] at h
      | ok v =>
        rw [hf] at h
        simp only [Except.map, Except.ok.injEq] at h
        obtain ⟨p2, ps2, hp2, hv⟩ := finishProcess_ok _ _ hf
        constructor
        · intro tr htr
          rw [← h] at htr
          simp only [Sum.inl.injEq] at htr
          subst htr
          constructor
          · rw [hv]; exact eAR.2.2.2.2.2.2.2.2.2.1
          · rw [hv]; exact eAR.2.2.2.2.2.2.2.2.2.2.1
        · intro tr htr
          rw [← h] at htr
          exact Sum.noConfusion htr
    · have eIC := initColumns_proj (applyRange t p) data
      have eIV := initVirtualIters_proj (initColumns (applyRange t p) data).1 data
      have ebc : (initVirtualIters (initColumns (applyRange t p) data).1
          data).bloom_provider_calls = t.bloom_provider_calls := by
        rw [eIV.1, eIC.1, eAR.2.2.2.2.2.2.2.2.2.1]
      have ecb : (initVirtualIters (initColumns (applyRange t p) data).1
          data).cached_bloom_runtime_filter = t.cached_bloom_runtime_filter := by
        rw [eIV.2.1, eIC.2.1, eAR.2.2.2.2.2.2.2.2.2.2.1]
      split at h
      · -- default-valued columns exist
        split at h
        · exact Except.noConfusion h
        · -- the default check rules the part out
          rename_i t3 heq3
          have h3f := checkDefaultValues_frame _ _ _ heq3
          have h3bc : t3.bloom_provider_calls = t.bloom_provider_calls := by
            rw [h3f]; exact ebc
          have h3cb : t3.cached_bloom_runtime_filter
              = t.cached_bloom_runtime_filter := by
            rw [h3f]; exact ecb
          cases hf : finishProcess t3 with
          | error e => rw [hf] at h; simp [Except.map] at h
          | ok v =>
            rw [hf] at h
            simp only [Except.map, Except.ok.injEq] at h
            obtain ⟨p2, ps2, hp2, hv⟩ := finishProcess_ok _ _ hf
            constructor
            · intro tr htr
              rw [← h] at htr
              simp only [Sum.inl.injEq] at htr
              subst htr
              constructor
              · rw [hv]; exact h3bc
              · rw [hv]; exact h3cb
            · intro tr htr
              rw [← h] at htr
              exact Sum.noConfusion htr
        · -- the default check passed
          rename_i t3 heq3
          have h3f := checkDefaultValues_frame _ _ _ heq3
          have h3bc : t3.bloom_provider_calls = t.bloom_provider_calls := by
            rw [h3f]; exact ebc
          have h3cb : t3.cached_bloom_runtime_filter
              = t.cached_bloom_runtime_filter := by
            rw [h3f]; exact ecb
          split at h
          · cases hf : finishProcessWithDefaultValues t3 with
            | error e => rw [hf] at h; simp [Except.map] at h
            | ok v =>
              rw [hf] at h
              simp only [Except.map, Except.ok.injEq] at h
              obtain ⟨⟨-, hbc, hcb⟩, -⟩ := finishProcessWithDefaultValues_aux _ _ hf
              constructor
              · intro tr htr
                rw [← h] at htr
                simp only [Sum.inl.injEq] at htr
                subst htr
                exact ⟨by rw [hbc]; exact h3bc, by rw [hcb]; exact h3cb⟩
              · intro tr htr
                rw [← h] at htr
                exact Sum.noConfusion htr
          · simp only [Except.ok.injEq] at h
            constructor
            · intro tr htr
              rw [← h] at htr
              exact Sum.noConfusion htr
            · intro tr htr
              rw [← h] at htr
              simp only [Sum.inr.injEq] at htr
              subst htr
              exact ⟨h3bc, h3cb⟩
      · -- no default-valued column
        split at h
        · cases hf : finishProcessWithDefaultValues
            { initVirtualIters (initColumns (applyRange t p) data).1 data with
              inited := true } with
          | error e => rw [hf] at h; simp [Except.map] at h
          | ok v =>
            rw [hf] at h
            simp only [Except.map, Except.ok.injEq] at h
            obtain ⟨⟨-, hbc, hcb⟩, -⟩ := finishProcessWithDefaultValues_aux _ _ hf
            constructor
            · intro tr htr
              rw [← h] at htr
              simp only [Sum.inl.injEq] at htr
              subst htr
              exact ⟨by rw [hbc]; exact ebc, by rw [hcb]; exact ecb⟩
            · intro tr htr
              rw [← h] at htr
              exact Sum.noConfusion htr
        · simp only [Except.ok.injEq] at h
          constructor
          · intro tr htr
            rw [← h] at htr
            exact Sum.noConfusion htr
          · intro tr htr
            rw [← h] at htr
            simp only [Sum.inr.injEq] at htr
            subst htr
            exact ⟨ebc, ecb⟩

/-- Master preservation lemma for `process`: the default-check counter is
untouched once a part is initialised, and the bloom provider is consulted at
most once per call and never once a filter set is cached. -/
theorem process_master (t t2 : Transform) (h : process t = .ok t2) :
    (t.inited = true → t2.default_checks = t.default_checks) ∧
    t2.bloom_provider_calls ≤ t.bloom_provider_calls + 1 ∧
    (∀ fs, t.cached_bloom_runtime_filter = some fs →
        t2.cached_bloom_runtime_filter = some fs ∧
        t2.bloom_provider_calls = t.bloom_provider_calls) := by
  unfold process at h
  split at h
  · simp only [Except.ok.injEq] at h
    subst h
    exact ⟨fun _ => rfl, Nat.le_succ _, fun fs hfs => ⟨hfs, rfl⟩⟩
  · split at h
    · -- pre-aggregated index
      obtain ⟨p, ps, hp, hv⟩ := finishProcess_ok _ _ h
      subst hv
      exact ⟨fun _ => rfl, Nat.le_succ _, fun fs hfs => ⟨hfs, rfl⟩⟩
    · split at h
      · -- empty projection
        obtain ⟨⟨hdc, hbc, hcb⟩, -⟩ := finishProcessWithEmptyBlock_aux _ _ h
        refine ⟨fun _ => hdc, ?_, fun fs hfs => ⟨by rw [hcb]; exact hfs, hbc⟩⟩
        rw [hbc]; exact Nat.le_succ _
      · split at h
        · -- part initialisation
          rename_i hcond hinit
          have hin : t.inited = false := by
            cases hi : t.inited with
            | false => rfl
            | true => rw [hi] at hinit; simp at hinit
          split at h
          · exact Except.noConfusion h
          · -- initPart returned
            rename_i tr heqI
            simp only [Except.ok.injEq] at h
            subst h
            obtain ⟨hbc, hcb⟩ := (initPart_aux _ _ _ heqI).1 tr rfl
            refine ⟨fun hit => absurd hit (by rw [hin]; simp), ?_,
              fun fs hfs => ⟨by rw [hcb]; exact hfs, hbc⟩⟩
            rw [hbc]; exact Nat.le_succ _
          · -- initPart continued into the page pipeline
            rename_i tr heqI
            obtain ⟨hbc, hcb⟩ := (initPart_aux _ _ _ heqI).2 tr rfl
            obtain ⟨-, pbc, pcb, -, -⟩ := pageStep_master _ _ h
            refine ⟨fun hit => absurd hit (by rw [hin]; simp), ?_, ?_⟩
            · rw [hbc] at pbc; exact pbc
            · intro fs hfs
              have hfs2 : tr.cached_bloom_runtime_filter = some fs := by
                rw [hcb]; exact hfs
              obtain ⟨hc1, hc2⟩ := pcb fs hfs2
              exact ⟨hc1, by rw [hc2, hbc]⟩
        · -- an initialised part: one page step
          obtain ⟨pdc, pbc, pcb, -, -⟩ := pageStep_master _ _ h
          exact ⟨fun _ => pdc, pbc, pcb⟩

/-! ### Claim C8: bloom runtime-filter resolution and memoization -/

/-- A mid-partition state with a non-empty cached bloom filter set. -/
def w8c : Transform :=
  { cex8State with cached_bloom_runtime_filter := some [(0, [.int 1])] }

/-- C8 counterexample: with an empty provider result nothing is cached, so one
partition with two pages consults the bloom-filter provider twice — once per
page step, not at most once per partition. -/
theorem bloom_provider_per_page_counterexample :
    ((process cex8State).bind process).map
        (fun t => (t.bloom_provider_calls, t.parts.length)) = .ok (2, 1) := by
  rfl

/-- C8 amended: once a non-empty bloom filter set is cached the provider is
never consulted again (by any later `process()` call, across the remaining
pages and partitions — the cache is never invalidated); while nothing is
cached, the provider is consulted at most once per `process()` call, i.e. per
page step rather than per partition. -/
theorem bloom_provider_memoized_amended :
    (∀ (t t2 : Transform) (fs : List (Nat × BloomFilter)),
        process t = .ok t2 →
        t.cached_bloom_runtime_filter = some fs →
        t2.cached_bloom_runtime_filter = some fs ∧
        t2.bloom_provider_calls = t.bloom_provider_calls) ∧
    (∀ (t t2 : Transform), process t = .ok t2 →
        t2.bloom_provider_calls ≤ t.bloom_provider_calls + 1) :=
  ⟨fun t t2 fs h hfs => (process_master t t2 h).2.2 fs hfs,
   fun t t2 h => (process_master t t2 h).2.1⟩

/-- Witness for the amended C8: with a cached filter set, a page step leaves
the cache and the consultation counter untouched; any step consults at most
once. -/
theorem bloom_provider_memoized_amended_witness :
    ∃ t2, process w8c = .ok t2 ∧
      t2.cached_bloom_runtime_filter = some [(0, [Value.int 1])] ∧
      t2.bloom_provider_calls = w8c.bloom_provider_calls ∧
      t2.bloom_provider_calls ≤ w8c.bloom_provider_calls + 1 := by
  obtain ⟨t2, ht⟩ : ∃ t2, process w8c = .ok t2 := ⟨_, rfl⟩
  obtain ⟨hc, hb⟩ :=
    bloom_provider_memoized_amended.1 w8c t2 [(0, [Value.int 1])] ht rfl
  exact ⟨t2, ht, hc, hb, bloom_provider_memoized_amended.2 w8c t2 ht⟩

/-! ### Lookup lemmas for default-value blocks -/

theorem alookup_append_some {α : Type} (xs ys : List (Nat × α)) (i : Nat)
    (v : α) (h : alookup xs i = some v) : alookup (xs ++ ys) i = some v := by
  induction xs with
  | nil => simp [alookup] at h
  | cons e rest ih =>
    obtain ⟨k, w⟩ := e
    simp only [List.cons_append, alookup] at h ⊢
    by_cases hk : k = i
    · simp only [if_pos hk] at h ⊢
      exact h
    · simp only [if_neg hk] at h ⊢
      exact ih h

theorem alookup_append_none {α : Type} (xs ys : List (Nat × α)) (i : Nat)
    (h : alookup xs i = none) : alookup (xs ++ ys) i = alookup ys i := by
  induction xs with
  | nil => rfl
  | cons e rest ih =>
    obtain ⟨k, w⟩ := e
    simp only [List.cons_append, alookup] at h ⊢
    by_cases hk : k = i
    · simp only [if_pos hk] at h
      exact Option.noConfusion h
    · simp only [if_neg hk] at h ⊢
      exact ih h

theorem alookup_rangeMap {α : Type} (n : Nat) (g : Nat → α) (j : Nat) :
    alookup ((List.range n).map (fun i => (i, g i))) j =
      if j < n then some (g j) else none := by
  induction n with
  | zero => simp [alookup]
  | succ m ih =>
    rw [List.range_succ, List.map_append]
    by_cases hj : j < m
    · have hsome := alookup_append_some
        ((List.range m).map (fun i => (i, g i)))
        ([m].map (fun i => (i, g i))) j (g j) (by rw [ih, if_pos hj])
      rw [hsome, if_pos (Nat.lt_succ_of_lt hj)]
    · have hnone : alookup ((List.range m).map (fun i => (i, g i))) j = none := by
        rw [ih, if_neg hj]
      rw [alookup_append_none _ _ _ hnone]
      by_cases hjm : j = m
      · subst hjm
        simp [alookup, Nat.lt_succ_self]
      · have hne2 : ¬ m = j := fun hc => hjm hc.symm
        have hnlt : ¬ j < m + 1 := by omega
        simp [alookup, List.map, hne2, hnlt]

theorem alookup_constMap (vcs : List VirtualColumnInfo) (j : Nat)
    (v : List Value) (h : ∃ c ∈ vcs, c.vindex = j) :
    alookup (vcs.map (fun c => (c.vindex, v))) j = some v := by
  induction vcs with
  | nil => simp at h
  | cons c0 rest ih =>
    obtain ⟨c, hc, hcj⟩ := h
    rw [List.map_cons]
    by_cases h0 : c0.vindex = j
    · rw [alookup, if_pos h0]
    · rw [alookup, if_neg h0]
      rcases List.mem_cons.mp hc with hch | hct
      · subst hch
        exact absurd hcj h0
      · exact ih ⟨c, hct, hcj⟩

theorem alookup_filterMapResort (b : DataBlock) :
    ∀ (out : List Nat) (i : Nat),
      alookup (out.filterMap (fun j => (alookup b.cols j).map (fun vs => (j, vs)))) i
        = if out.contains i then alookup b.cols i else none := by
  intro out
  induction out with
  | nil => intro i; simp [alookup]
  | cons j rest ih =>
    intro i
    rw [List.filterMap_cons]
    by_cases hj : j = i
    · subst hj
      cases hb : alookup b.cols j with
      | some vs =>
        simp only [hb, Option.map_some']
        rw [alookup, if_pos rfl]
        simp [hb]
      | none =>
        simp only [hb, Option.map_none']
        rw [ih]
        by_cases hir : j ∈ rest <;> simp [hir, hb]
    · have hji : ¬ i = j := fun hc => hj hc.symm
      cases hb : alookup b.cols j with
      | some vs =>
        simp only [hb, Option.map_some']
        rw [alookup, if_neg hj, ih]
        by_cases hir : i ∈ rest <;> simp [hir, hji]
      | none =>
        simp only [hb, Option.map_none']
        rw [ih]
        by_cases hir : i ∈ rest <;> simp [hir, hji]

theorem alookup_resort (b : DataBlock) (out : List Nat) (i : Nat) :
    alookup (resort b out).cols i =
      if out.contains i then alookup b.cols i else none :=
  alookup_filterMapResort b out i

/-! ### Claim C6: the default-values check at part initialisation -/

/-- `add_block` with a non-empty block stages it and counts progress. -/
theorem addBlock_stages (t : Transform) (b : DataBlock) (h : b.nrows ≠ 0) :
    addBlock t b = { t with scan_rows := t.scan_rows + b.nrows,
                            scan_bytes := t.scan_bytes + b.memorySize,
                            output_data := some b } := by
  unfold addBlock
  rw [if_neg h]

/-- The check counter is invisible to the all-prewhere-defaults test. -/
theorem allPrewhereDefaults_dc (u : Transform) (d : Nat) :
    allPrewhereDefaults { u with default_checks := d } = allPrewhereDefaults u := rfl

/-- The check counter is invisible to the top-K default pre-check. -/
theorem topkDefaultNeverMatch_dc (u : Transform) (d : Nat) :
    topkDefaultNeverMatch { u with default_checks := d } = topkDefaultNeverMatch u := rfl

/-- The check counter is invisible to the prewhere-virtual-defaults test. -/
theorem allPrewhereVirtualDefaults_dc (u : Transform) (d : Nat) :
    allPrewhereVirtualDefaults { u with default_checks := d }
      = allPrewhereVirtualDefaults u := rfl

/-- The check counter is invisible to the constant default row. -/
theorem defaultPrewhereBlock_dc (u : Transform) (d : Nat) :
    defaultPrewhereBlock { u with default_checks := d }
      = defaultPrewhereBlock u := rfl

/-- `applyRange` keeps the configured default values. -/
theorem applyRange_default_vals (t : Transform) (p : FusePartInfo) :
    (applyRange t p).default_vals = t.default_vals := by
  unfold applyRange
  cases p.range_start <;> rfl

/-- The top-K fold of `check_default_values`, exactly: when every prewhere
column is default-valued, the default row passes the predicate, and the top-K
column has no iterator, the sorter is updated by pushing the default value
expanded to the part's row count — once — and the part is not ruled out. -/
theorem checkDefaultValuesCore_fold (u : Transform) (p : FusePartInfo)
    (ps : List FusePartInfo) (sorter : TopKSorter) (index : Nat) (filt : Pred)
    (flags : List Bool)
    (hntk : topkDefaultNeverMatch u = false)
    (hpf : u.prewhere_filter = some filt)
    (hall : allPrewhereDefaults u = true)
    (hvall : allPrewhereVirtualDefaults u = true)
    (heval : evalPredOnBlock filt (defaultPrewhereBlock u) = .ok flags)
    (hflags : flags.all (fun x => !x) = false)
    (htk : u.top_k = some (sorter, index))
    (hiter : (alookup u.array_iters index).isNone = true)
    (hp : u.parts = p :: ps) :
    checkDefaultValuesCore u
      = .ok ({ u with
               top_k := some (sorter.pushColumn
                 (List.replicate p.nums_rows (u.default_vals index)), index) },
             false) := by
  unfold checkDefaultValuesCore
  rw [if_neg (by simp [hntk])]
  rw [hpf]
  dsimp only
  rw [if_pos (by rw [hall, hvall]; rfl)]
  rw [heval]
  dsimp only
  rw [if_neg (by simp [hflags])]
  rw [htk]
  dsimp only
  rw [if_pos hiter]
  rw [hp]

/-- When some prewhere column has an open iterator (and the top-K pre-check
does not fire), the body of `check_default_values` changes nothing and never
rules the part out: the constant-default-row evaluation is reached only when
every prewhere column is default-valued. -/
theorem checkDefaultValuesCore_no_defaults (u : Transform)
    (hna : allPrewhereDefaults u = false) (hntk : topkDefaultNeverMatch u = false) :
    checkDefaultValuesCore u = .ok (u, false) := by
  unfold checkDefaultValuesCore
  rw [if_neg (by simp [hntk])]
  cases hpf : u.prewhere_filter with
  | none => rfl
  | some filt =>
    dsimp only
    rw [if_neg (by simp [hna])]

/-- Content of the block synthesized by `finish_process_with_default_values`:
the part is popped and reset, and the staged block has the part's row count,
every projected source column constant at its default, and every virtual
column constant `Null`. -/
theorem finishProcessWithDefaultValues_content (u : Transform) (p : FusePartInfo)
    (ps : List FusePartInfo) (hp : u.parts = p :: ps) (hn : 0 < p.nums_rows) :
    ∃ t4, finishProcessWithDefaultValues u = .ok t4 ∧ t4.parts = ps ∧
      t4.inited = false ∧ t4.offset_in_part = 0 ∧
      ∃ blk, t4.output_data = some blk ∧ blk.nrows = p.nums_rows ∧
        (∀ i, i < u.num_cols → u.output_columns.contains i = true →
          alookup blk.cols i = some (List.replicate p.nums_rows (u.default_vals i))) ∧
        (∀ vc, vc ∈ u.virtual_columns.getD [] → u.num_cols ≤ vc.vindex →
          u.output_columns.contains vc.vindex = true →
          alookup blk.cols vc.vindex = some (List.replicate p.nums_rows Value.null)) := by
  unfold finishProcessWithDefaultValues
  rw [hp]
  dsimp only
  cases hvc : u.virtual_columns with
  | none =>
    dsimp only
    have hnr : (resort (buildDefaultValuesBlock u p.nums_rows)
        u.output_columns).nrows = p.nums_rows := rfl
    rw [addBlock_stages _ _ (by rw [hnr]; omega)]
    refine ⟨_, rfl, rfl, rfl, rfl, _, rfl, hnr, ?_, ?_⟩
    · intro i hi hci
      rw [alookup_resort, hci, if_pos rfl]
      show alookup ((List.range u.num_cols).map
          (fun j => (j, List.replicate p.nums_rows (u.default_vals j)))) i
        = some (List.replicate p.nums_rows (u.default_vals i))
      rw [alookup_rangeMap, if_pos hi]
    · intro vc hmem
      exact absurd hmem (by simp)
  | some vcs =>
    dsimp only
    have hnr : (resort
        { cols := (buildDefaultValuesBlock u p.nums_rows).cols
            ++ vcs.map (fun vc => (vc.vindex,
                 List.replicate (buildDefaultValuesBlock u p.nums_rows).nrows Value.null)),
          nrows := (buildDefaultValuesBlock u p.nums_rows).nrows }
        u.output_columns).nrows = p.nums_rows := rfl
    rw [addBlock_stages _ _ (by rw [hnr]; omega)]
    refine ⟨_, rfl, rfl, rfl, rfl, _, rfl, hnr, ?_, ?_⟩
    · intro i hi hci
      rw [alookup_resort, hci, if_pos rfl]
      show alookup ((List.range u.num_cols).map
            (fun j => (j, List.replicate p.nums_rows (u.default_vals j)))
          ++ vcs.map (fun c => (c.vindex, List.replicate p.nums_rows Value.null))) i
        = some (List.replicate p.nums_rows (u.default_vals i))
      exact alookup_append_some _ _ _ _ (by rw [alookup_rangeMap, if_pos hi])
    · intro vc hmem hle hci
      have hmem2 : vc ∈ vcs := by simpa using hmem
      rw [alookup_resort, hci, if_pos rfl]
      show alookup ((List.range u.num_cols).map
            (fun j => (j, List.replicate p.nums_rows (u.default_vals j)))
          ++ vcs.map (fun c => (c.vindex, List.replicate p.nums_rows Value.null)))
          vc.vindex
        = some (List.replicate p.nums_rows Value.null)
      rw [alookup_append_none _ _ _ (by rw [alookup_rangeMap, if_neg (by omega)])]
      exact alookup_constMap vcs vc.vindex _ ⟨vc, hmem2, rfl⟩

/-- C6 counterexample: in `cex6State` the remaining column 1 is default-valued
while the prewhere column 0 has data, and the predicate is false on the
constant default row — yet `process` runs the default check (counter 1),
skips nothing and emits a block with the part retained, because the code
evaluates the predicate against the default row only when ALL prewhere
columns are default-valued, not when merely some projected column is. -/
theorem default_values_partial_prewhere_counterexample :
    evalPredOnBlock predEq7 (defaultPrewhereBlock cex6State) = .ok [false] ∧
    (process cex6State).map
        (fun t => (t.output_data.isSome, t.parts.length, t.skipped_page,
          t.default_checks))
      = .ok (true, 1, 0, 1) := ⟨rfl, rfl⟩

/-- C6 (amended): at part initialisation with default-valued columns present,
the prewhere predicate is evaluated against the constant default row only when
EVERY prewhere column (and every prewhere virtual column source) is
default-valued — otherwise the check changes nothing, never skips, and folds
nothing into the top-K bound (a); when the check does rule the part out the
whole part is skipped with no output and no skipped-page increment (b); and
when afterwards no column at all needs decoding the part's output block is
synthesized entirely from default values with virtual columns set to `Null`
and the part is finished (c). -/
theorem default_values_check_amended
    (t t3 : Transform) (data : ChunkData) (p : FusePartInfo)
    (ps : List FusePartInfo) (b : Bool)
    (hp : t.parts = p :: ps)
    (hnm : topkNeverMatchPart (applyRange t p) p = false)
    (hdef : (initColumns (applyRange t p) data).2 = true)
    (hchk : checkDefaultValues
        { initVirtualIters (initColumns (applyRange t p) data).1 data with
          inited := true } = .ok (t3, b)) :
    (allPrewhereDefaults
        { initVirtualIters (initColumns (applyRange t p) data).1 data with
          inited := true } = false →
      topkDefaultNeverMatch
        { initVirtualIters (initColumns (applyRange t p) data).1 data with
          inited := true } = false →
      b = false ∧ t3.top_k = t.top_k) ∧
    (b = true →
      initPart t data = .ok (.inl { t3 with
        chunks := t3.chunks.tail, parts := ps, inited := false,
        array_iters := [], array_skip_pages := [], offset_in_part := 0,
        read_column_ids := [] }) ∧
      t3.output_data = t.output_data ∧ t3.skipped_page = t.skipped_page) ∧
    (b = false → t3.array_iters = [] → 0 < p.nums_rows →
      ∃ t4, initPart t data = .ok (.inl t4) ∧ t4.parts = ps ∧
        t4.inited = false ∧ t4.offset_in_part = 0 ∧
        ∃ blk, t4.output_data = some blk ∧ blk.nrows = p.nums_rows ∧
          (∀ i, i < t3.num_cols → t3.output_columns.contains i = true →
            alookup blk.cols i =
              some (List.replicate p.nums_rows (t3.default_vals i))) ∧
          (∀ vc, vc ∈ t3.virtual_columns.getD [] → t3.num_cols ≤ vc.vindex →
            t3.output_columns.contains vc.vindex = true →
            alookup blk.cols vc.vindex =
              some (List.replicate p.nums_rows Value.null))) ∧
    (∀ (sorter : TopKSorter) (index : Nat) (filt : Pred) (flags : List Bool),
      ({ initVirtualIters (initColumns (applyRange t p) data).1 data with
         inited := true } : Transform).top_k = some (sorter, index) →
      topkDefaultNeverMatch
        { initVirtualIters (initColumns (applyRange t p) data).1 data with
          inited := true } = false →
      ({ initVirtualIters (initColumns (applyRange t p) data).1 data with
         inited := true } : Transform).prewhere_filter = some filt →
      allPrewhereDefaults
        { initVirtualIters (initColumns (applyRange t p) data).1 data with
          inited := true } = true →
      allPrewhereVirtualDefaults
        { initVirtualIters (initColumns (applyRange t p) data).1 data with
          inited := true } = true →
      evalPredOnBlock filt (defaultPrewhereBlock
        { initVirtualIters (initColumns (applyRange t p) data).1 data with
          inited := true }) = .ok flags →
      flags.all (fun x => !x) = false →
      (alookup ({ initVirtualIters (initColumns (applyRange t p) data).1 data with
         inited := true } : Transform).array_iters index).isNone = true →
      b = false ∧
      t3.top_k = some (sorter.pushColumn
        (List.replicate p.nums_rows (t.default_vals index)), index)) := by
  have hfr := checkDefaultValues_frame _ _ _ hchk
  have h3p : t3.parts = p :: ps := by
    rw [hfr]
    show (initVirtualIters (initColumns (applyRange t p) data).1 data).parts
      = p :: ps
    rw [(initVirtualIters_proj _ _).2.2.1, (initColumns_proj _ _).2.2.1,
      (applyRange_proj t p).1, hp]
  refine ⟨?_, ?_, ?_, ?_⟩
  · intro hna hntk
    have hchk2 := (checkDefaultValuesCore_no_defaults _
      (by rw [allPrewhereDefaults_dc]; exact hna)
      (by rw [topkDefaultNeverMatch_dc]; exact hntk)).symm.trans hchk
    simp only [Except.ok.injEq, Prod.mk.injEq] at hchk2
    obtain ⟨h1, h2⟩ := hchk2
    refine ⟨h2.symm, ?_⟩
    rw [← h1]
    show (initVirtualIters (initColumns (applyRange t p) data).1 data).top_k
      = t.top_k
    rw [(initVirtualIters_proj _ _).2.2.2.2.2.2.2.2.2.1,
      (initColumns_proj _ _).2.2.2.2.2.2.2.2.2.1,
      (applyRange_proj t p).2.2.2.2.2.2.1]
  · intro hb
    subst hb
    have hfin : finishProcess t3 = .ok { t3 with
        chunks := t3.chunks.tail, parts := ps, inited := false,
        array_iters := [], array_skip_pages := [], offset_in_part := 0,
        read_column_ids := [] } := by
      unfold finishProcess
      rw [h3p]
    have hstep : initPart t data = (finishProcess t3).map Sum.inl := by
      unfold initPart
      rw [hp]
      dsimp only
      rw [if_neg (by simp [hnm]), if_pos hdef, hchk]
    refine ⟨?_, ?_, ?_⟩
    · rw [hstep, hfin]
      rfl
    · rw [hfr]
      show (initVirtualIters (initColumns (applyRange t p) data).1
          data).output_data = t.output_data
      rw [(initVirtualIters_proj _ _).2.2.2.2.2.1,
        (initColumns_proj _ _).2.2.2.2.2.1, (applyRange_proj t p).2.2.1]
    · rw [hfr]
      show (initVirtualIters (initColumns (applyRange t p) data).1
          data).skipped_page = t.skipped_page
      rw [(initVirtualIters_proj _ _).2.2.2.2.2.2.1,
        (initColumns_proj _ _).2.2.2.2.2.2.1, (applyRange_proj t p).2.2.2.1]
  · intro hb hai hn
    subst hb
    have hstep : initPart t data
        = (finishProcessWithDefaultValues t3).map Sum.inl := by
      unfold initPart
      rw [hp]
      dsimp only
      rw [if_neg (by simp [hnm]), if_pos hdef, hchk]
      dsimp only
      rw [hai, if_pos (show ([] : List (Nat × List Arr)).isEmpty = true from rfl)]
    obtain ⟨t4, hfin, hparts4, hinit4, hoff4, blk, hout, hnrw, hbase, hvirt⟩ :=
      finishProcessWithDefaultValues_content t3 p ps h3p hn
    refine ⟨t4, ?_, hparts4, hinit4, hoff4, blk, hout, hnrw, hbase, hvirt⟩
    rw [hstep, hfin]
    rfl
  · intro sorter index filt flags htk hntk2 hpf hall hvall heval hflags hiter
    have hT2p : ({ initVirtualIters (initColumns (applyRange t p) data).1 data with
        inited := true } : Transform).parts = p :: ps := by
      show (initVirtualIters (initColumns (applyRange t p) data).1 data).parts
        = p :: ps
      rw [(initVirtualIters_proj _ _).2.2.1, (initColumns_proj _ _).2.2.1,
        (applyRange_proj t p).1, hp]
    have hchk2 := (checkDefaultValuesCore_fold _ p ps sorter index filt flags
      (by rw [topkDefaultNeverMatch_dc]; exact hntk2)
      (by exact hpf)
      (by rw [allPrewhereDefaults_dc]; exact hall)
      (by rw [allPrewhereVirtualDefaults_dc]; exact hvall)
      (by rw [defaultPrewhereBlock_dc]; exact heval)
      hflags
      (by exact htk)
      (by exact hiter)
      (by exact hT2p)).symm.trans hchk
    simp only [Except.ok.injEq, Prod.mk.injEq] at hchk2
    obtain ⟨h1, h2⟩ := hchk2
    refine ⟨h2.symm, ?_⟩
    rw [← h1]
    show some (sorter.pushColumn (List.replicate p.nums_rows
        ((initVirtualIters (initColumns (applyRange t p) data).1
          data).default_vals index)), index)
      = some (sorter.pushColumn
          (List.replicate p.nums_rows (t.default_vals index)), index)
    rw [(initVirtualIters_proj _ _).2.2.2.2.2.2.2.2.2.2.2.2.2.2.2.2,
      (initColumns_proj _ _).2.2.2.2.2.2.2.2.2.2.2.2.2.2.2.2,
      applyRange_default_vals]

/-- A predicate true exactly on rows whose column 0 equals 0 — satisfied by the
constant default row. -/
def predEq0 : Pred := fun r => .ok (decide (r 0 = .int 0))

/-- A two-row part descriptor for the all-defaults scenario. -/
def p6 : FusePartInfo :=
  { nums_rows := 2, sort_min_max := none, range_start := none, page_size := 0 }

/-- A virtual column over source column 0, placed at index 2. -/
def vcol6 : VirtualColumnInfo :=
  { vindex := 2, src_index := 0, extract := fun v => v }

/-- A part where every projected column is default-valued, the prewhere
predicate holds on the default row, and a virtual column is projected. -/
def w6State : Transform :=
  { baseT with
    num_cols := 2, prewhere_columns := [0], remain_columns := [1],
    prewhere_filter := some predEq0,
    output_columns := [0, 1, 2],
    virtual_columns := some [vcol6],
    filter_executor := some { pred := predEq0, true_selection := [] },
    parts := [p6],
    chunks := [.normal []] }

/-- The state returned by the default-values check on `w6State`. -/
def w6chk : Transform :=
  { w6State with inited := true, default_checks := 1 }

/-- A part with a top-K sorter whose column is default-valued, every prewhere
column default-valued, and the default row passing the predicate. -/
def w6t : Transform :=
  { baseT with
    num_cols := 1, prewhere_columns := [0],
    prewhere_filter := some predEq0,
    output_columns := [0],
    top_k := some ({ limit := 1, asc := true, data := [] }, 0),
    parts := [p6],
    chunks := [.normal []] }

/-- The state returned by the default-values check on `w6t`: the default value
has been folded into the top-K bound once. -/
def w6tchk : Transform :=
  { w6t with
    inited := true, default_checks := 1,
    top_k := some (TopKSorter.pushColumn { limit := 1, asc := true, data := [] }
      (List.replicate 2 (Value.int 0)), 0) }

/-- Witness for C6 (amended): with every column default-valued and the default
row passing the predicate, part initialisation synthesizes the whole part from
defaults — a 2-row block with column constants at their defaults and the
virtual column `Null` — and finishes the part; and with a top-K sorter on a
default-valued column, the check folds the default column into the bound
exactly once. -/
theorem default_values_check_amended_witness :
    (∃ t4, initPart w6State [] = .ok (.inl t4) ∧ t4.parts = [] ∧
      t4.inited = false ∧ t4.offset_in_part = 0 ∧
      ∃ blk, t4.output_data = some blk ∧ blk.nrows = p6.nums_rows ∧
        (∀ i, i < w6chk.num_cols → w6chk.output_columns.contains i = true →
          alookup blk.cols i =
            some (List.replicate p6.nums_rows (w6chk.default_vals i))) ∧
        (∀ vc, vc ∈ w6chk.virtual_columns.getD [] → w6chk.num_cols ≤ vc.vindex →
          w6chk.output_columns.contains vc.vindex = true →
          alookup blk.cols vc.vindex =
            some (List.replicate p6.nums_rows Value.null))) ∧
    w6tchk.top_k = some (TopKSorter.pushColumn
      { limit := 1, asc := true, data := [] } (List.replicate 2 (Value.int 0)), 0) :=
  ⟨(default_values_check_amended w6State w6chk [] p6 [] false rfl rfl rfl
      rfl).2.2.1 rfl rfl (by decide),
   ((default_values_check_amended w6t w6tchk [] p6 [] false rfl rfl rfl
      rfl).2.2.2 { limit := 1, asc := true, data := [] } 0 predEq0 [true]
      rfl rfl rfl rfl rfl rfl rfl rfl).2⟩

/-- The page-skipping exits of the prewhere step, exactly: the skipped-page
counter rises by 1 and the offset advances by exactly the evaluated prewhere
block's row count; nothing is staged and the part is retained. -/
theorem stepPrewhereFilter_inl_exact (t : Transform)
    (arrays : List (Nat × Arr)) (defaults : List Nat) (t1 : Transform)
    (h : stepPrewhereFilter t arrays defaults = .ok (.inl t1)) :
    t1.offset_in_part = t.offset_in_part
      + (prewhereBlockOf t arrays defaults).nrows ∧
    t1.skipped_page = t.skipped_page + 1 ∧
    t1.output_data = t.output_data ∧ t1.parts = t.parts ∧
    t1.chunks = t.chunks := by
  unfold stepPrewhereFilter at h
  split at h
  · simp at h
  · split at h
    · simp at h
    · dsimp only at h
      split at h
      · simp at h
      · split at h
        · simp at h
        · split at h
          · simp only [Except.ok.injEq, Sum.inl.injEq] at h
            subst h
            exact ⟨rfl, rfl, rfl, rfl, rfl⟩
          · split at h
            · split at h
              · simp only [Except.ok.injEq, Sum.inl.injEq] at h
                subst h
                exact ⟨rfl, rfl, rfl, rfl, rfl⟩
              · simp at h
            · simp at h

/-- In the continue case, the prewhere step changes only the filter executor
and the top-K sorter. -/
theorem stepPrewhereFilter_inr_frame (t : Transform)
    (arrays : List (Nat × Arr)) (defaults : List Nat) (t1 : Transform)
    (c : Option Nat)
    (h : stepPrewhereFilter t arrays defaults = .ok (.inr (t1, c))) :
    t1 = { t with filter_executor := t1.filter_executor,
                  top_k := t1.top_k } := by
  unfold stepPrewhereFilter at h
  split at h
  · simp only [Except.ok.injEq, Sum.inr.injEq, Prod.mk.injEq] at h
    obtain ⟨h1, -⟩ := h
    subst h1
    rfl
  · split at h
    · simp only [Except.ok.injEq, Sum.inr.injEq, Prod.mk.injEq] at h
      obtain ⟨h1, -⟩ := h
      subst h1
      rfl
    · dsimp only at h
      split at h
      · simp at h
      · split at h
        · simp at h
        · split at h
          · simp at h
          · split at h
            · split at h
              · simp at h
              · simp only [Except.ok.injEq, Sum.inr.injEq, Prod.mk.injEq] at h
                obtain ⟨h1, -⟩ := h
                subst h1
                rfl
            · simp only [Except.ok.injEq, Sum.inr.injEq, Prod.mk.injEq] at h
              obtain ⟨h1, -⟩ := h
              subst h1
              rfl

/-! ### Claim C3: offset_in_part bookkeeping -/

/-- When the bloom stage does not skip, `offset_in_part` is untouched. -/
theorem bloomRuntimeFilter_noskip_offset (t : Transform)
    (arrays : List (Nat × Arr)) (count : Option Nat) (t4 : Transform)
    (a4 : List (Nat × Arr)) (c4 : Option Nat)
    (h : bloomRuntimeFilter t arrays count = .ok (t4, a4, false, c4)) :
    t4.offset_in_part = t.offset_in_part := by
  unfold bloomRuntimeFilter at h
  split at h
  · exact ((bloomLoop_skip_props _ _ _ _ _ _ _ _ _ h).2 rfl).2.1
  · dsimp only at h
    split at h
    · simp only [Except.ok.injEq, Prod.mk.injEq] at h
      obtain ⟨h1, -⟩ := h
      subst h1
      rfl
    · exact ((bloomLoop_skip_props _ _ _ _ _ _ _ _ _ h).2 rfl).2.1

/-- Scenario A of the spec as a mid-part state: an initialised part with one
4-row page `[5, 12, 20, 3]` and prewhere predicate `price > 10`. -/
def w3State : Transform :=
  { baseT with
    num_cols := 1, prewhere_columns := [0], prewhere_filter := some predGT10,
    output_columns := [0],
    filter_executor := some { pred := predGT10, true_selection := [] },
    parts := [{ nums_rows := 4, sort_min_max := none, range_start := none,
                page_size := 0 }],
    chunks := [.normal []],
    inited := true,
    array_iters := [(0, [[.int 5, .int 12, .int 20, .int 3]])],
    array_skip_pages := [(0, 0)],
    read_column_ids := [0] }

/-- C3: within one part, `offset_in_part` is monotonically non-decreasing
across any `process` call that keeps the part queue unchanged (given the
invariant that an uninitialised state has offset 0), and on every page-
consuming outcome it advances by exactly the page's original pre-filter row
count: on the block-emitting outcome by the built block's row count before the
selection is applied (independent of the surviving-row count), on the top-K
skip by the decoded sort-column page's rows, on the prewhere skip by the
evaluated prewhere block's rows, and on the bloom skip by the probed page's
rows. -/
theorem offset_advances_by_page_rows
    (t t2 : Transform)
    (hz : t.inited = false → t.offset_in_part = 0)
    (hproc : process t = .ok t2) :
    (t2.parts = t.parts → t.offset_in_part ≤ t2.offset_in_part) ∧
    (∀ (d : ChunkData) (rest : List NativeDataSource)
       (t1 u2 u3 u4 u5 : Transform)
       (a1 arrays2 arrays4 arrays5 : List (Nat × Arr))
       (defaults2 d5 : List Nat) (nf2 nf5 : Bool) (count3 count4 : Option Nat),
       t.chunks = .normal d :: rest → t.inited = true →
       stepTopK { t with read_columns := [] } = .ok (.inr (t1, a1)) →
       readCols t1.prewhere_columns true t1 a1 [] false
         = .ok (.inr (u2, arrays2, defaults2, nf2)) →
       stepPrewhereFilter u2 arrays2 defaults2 = .ok (.inr (u3, count3)) →
       bloomRuntimeFilter u3 arrays2 count3 = .ok (u4, arrays4, false, count4) →
       readCols u4.remain_columns false u4 arrays4 [] nf2
         = .ok (.inr (u5, arrays5, d5, nf5)) →
       t2.offset_in_part = t.offset_in_part
         + (addVirtualColumns arrays5 u5.virtual_columns
             (if nf5 = true then fillMissing u5 (buildBlock arrays5)
              else buildBlock arrays5)).nrows) ∧
    (∀ (d : ChunkData) (rest : List NativeDataSource) (sorter : TopKSorter)
       (index : Nat) (arr : Arr) (iters2 : List Arr),
       t.chunks = .normal d :: rest → t.inited = true →
       1 < t.prewhere_columns.length →
       t.top_k = some (sorter, index) →
       alookup t.array_iters index = some (arr :: iters2) →
       sorter.neverMatchAny arr = true →
       t2.offset_in_part = t.offset_in_part + arr.length ∧
       t2.skipped_page = t.skipped_page + 1 ∧
       t2.output_data = t.output_data ∧ t2.parts = t.parts) ∧
    (∀ (d : ChunkData) (rest : List NativeDataSource) (t1 u2 : Transform)
       (a1 arrays2 : List (Nat × Arr)) (defaults2 : List Nat) (nf2 : Bool)
       (tr : Transform),
       t.chunks = .normal d :: rest → t.inited = true →
       stepTopK { t with read_columns := [] } = .ok (.inr (t1, a1)) →
       readCols t1.prewhere_columns true t1 a1 [] false
         = .ok (.inr (u2, arrays2, defaults2, nf2)) →
       stepPrewhereFilter u2 arrays2 defaults2 = .ok (.inl tr) →
       t2.offset_in_part = t.offset_in_part
         + (prewhereBlockOf u2 arrays2 defaults2).nrows ∧
       t2.skipped_page = t.skipped_page + 1 ∧
       t2.output_data = t.output_data ∧ t2.parts = t.parts) ∧
    (∀ (d : ChunkData) (rest : List NativeDataSource) (t1 u2 u3 : Transform)
       (a1 arrays2 : List (Nat × Arr)) (defaults2 : List Nat) (nf2 : Bool)
       (count3 : Option Nat) (t4 : Transform) (a4 : List (Nat × Arr))
       (c4 : Option Nat),
       t.chunks = .normal d :: rest → t.inited = true →
       stepTopK { t with read_columns := [] } = .ok (.inr (t1, a1)) →
       readCols t1.prewhere_columns true t1 a1 [] false
         = .ok (.inr (u2, arrays2, defaults2, nf2)) →
       stepPrewhereFilter u2 arrays2 defaults2 = .ok (.inr (u3, count3)) →
       bloomRuntimeFilter u3 arrays2 count3 = .ok (t4, a4, true, c4) →
       ∃ idx arr, (idx, arr) ∈ a4 ∧
         t2.offset_in_part = t.offset_in_part + arr.length ∧
         t2.skipped_page = t.skipped_page + 1 ∧
         t2.output_data = t.output_data ∧ t2.parts = t.parts) := by
  refine ⟨?_, ?_, ?_, ?_, ?_⟩
  · intro hpp
    cases hi : t.inited with
    | false =>
      rw [hz hi]
      exact Nat.zero_le _
    | true =>
      unfold process at hproc
      split at hproc
      · simp only [Except.ok.injEq] at hproc
        subst hproc
        exact Nat.le_refl _
      · split at hproc
        · obtain ⟨pp, pps, hp1, hv⟩ := finishProcess_ok _ _ hproc
          exfalso
          have hp1t : t.parts = pp :: pps := hp1
          have h2p : t2.parts = pps := by rw [hv]
          rw [h2p, hp1t] at hpp
          exact List.cons_ne_self pp pps hpp.symm
        · split at hproc
          · rename_i hcond
            rw [hi] at hcond
            simp at hcond
          · split at hproc
            · rename_i hcond2
              rw [hi] at hcond2
              simp at hcond2
            · exact (pageStep_master _ _ hproc).2.2.2.1 hpp
  · intro d rest t1 u2 u3 u4 u5 a1 arrays2 arrays4 arrays5 defaults2 d5 nf2 nf5
      count3 count4 hch hin h1 h2 h3 h4 h5
    have hpg : process t = pageStep t := by
      simp only [process, hch, hin, Bool.not_true, Bool.and_false,
        Bool.false_eq_true, if_false]
    have hp2 := hproc
    rw [hpg] at hp2
    simp only [pageStep, h1, h2, h3, h4, Bool.false_eq_true, if_false, h5]
      at hp2
    have hf1 := stepTopK_inr_frame { t with read_columns := [] } t1 a1 h1
    have e1 : t1.offset_in_part = t.offset_in_part := by rw [hf1]
    have hf2 := readCols_inr_frame t1.prewhere_columns true t1 a1 [] false
      u2 arrays2 defaults2 nf2 h2
    have e2 : u2.offset_in_part = t1.offset_in_part := by rw [hf2]
    obtain ⟨⟨-, -, -⟩, -, -, -, e3off⟩ :=
      (stepPrewhereFilter_cases _ _ _ _ h3).1 u3 count3 rfl
    have e4 : u4.offset_in_part = u3.offset_in_part :=
      bloomRuntimeFilter_noskip_offset _ _ _ _ _ _ h4
    have hf5 := readCols_inr_frame u4.remain_columns false u4 arrays4 [] nf2
      u5 arrays5 d5 nf5 h5
    have e5 : u5.offset_in_part = u4.offset_in_part := by rw [hf5]
    cases count4 with
    | none =>
      unfold emitBlock at hp2
      dsimp only at hp2
      simp only [Except.ok.injEq] at hp2
      subst hp2
      rw [(addBlock_aux _ _).2.2.2.2.1]
      show u5.offset_in_part
          + (addVirtualColumns arrays5 u5.virtual_columns
              (if nf5 = true then fillMissing u5 (buildBlock arrays5)
               else buildBlock arrays5)).nrows
        = t.offset_in_part
          + (addVirtualColumns arrays5 u5.virtual_columns
              (if nf5 = true then fillMissing u5 (buildBlock arrays5)
               else buildBlock arrays5)).nrows
      rw [e5, e4, e3off, e2, e1]
    | some c =>
      unfold emitBlock at hp2
      dsimp only at hp2
      cases hfe : u5.filter_executor with
      | none =>
        rw [hfe] at hp2
        dsimp only at hp2
        exact Except.noConfusion hp2
      | some fe =>
        rw [hfe] at hp2
        dsimp only at hp2
        simp only [Except.ok.injEq] at hp2
        subst hp2
        rw [(addBlock_aux _ _).2.2.2.2.1]
        show u5.offset_in_part
            + (addVirtualColumns arrays5 u5.virtual_columns
                (if nf5 = true then fillMissing u5 (buildBlock arrays5)
                 else buildBlock arrays5)).nrows
          = t.offset_in_part
            + (addVirtualColumns arrays5 u5.virtual_columns
                (if nf5 = true then fillMissing u5 (buildBlock arrays5)
                 else buildBlock arrays5)).nrows
        rw [e5, e4, e3off, e2, e1]
  · intro d rest sorter index arr iters2 hch hin hlen htk hai hnm2
    have hpg : process t = pageStep t := by
      simp only [process, hch, hin, Bool.not_true, Bool.and_false,
        Bool.false_eq_true, if_false]
    have hts : stepTopK { t with read_columns := [] }
        = .ok (.inl (finishProcessSkipPage
            { t with
              read_columns := [index],
              array_iters := ainsert t.array_iters index iters2,
              offset_in_part := t.offset_in_part + arr.length })) := by
      unfold stepTopK
      dsimp only
      rw [if_pos hlen, htk]
      dsimp only
      rw [hai]
      dsimp only
      rw [if_pos hnm2]
      rfl
    have hp2 := hproc
    rw [hpg] at hp2
    simp only [pageStep, hts] at hp2
    simp only [Except.ok.injEq] at hp2
    rw [← hp2]
    exact ⟨rfl, rfl, rfl, rfl⟩
  · intro d rest t1 u2 a1 arrays2 defaults2 nf2 tr hch hin h1 h2 h3
    have hpg : process t = pageStep t := by
      simp only [process, hch, hin, Bool.not_true, Bool.and_false,
        Bool.false_eq_true, if_false]
    have hp2 := hproc
    rw [hpg] at hp2
    simp only [pageStep, h1, h2, h3] at hp2
    simp only [Except.ok.injEq] at hp2
    have hf1 := stepTopK_inr_frame { t with read_columns := [] } t1 a1 h1
    have hf2 := readCols_inr_frame t1.prewhere_columns true t1 a1 [] false
      u2 arrays2 defaults2 nf2 h2
    obtain ⟨hoff, hsk, hout, hpa, -⟩ :=
      stepPrewhereFilter_inl_exact u2 arrays2 defaults2 tr h3
    have e1of : t1.offset_in_part = t.offset_in_part := by rw [hf1]
    have e1sk : t1.skipped_page = t.skipped_page := by rw [hf1]
    have e1od : t1.output_data = t.output_data := by rw [hf1]
    have e1pa : t1.parts = t.parts := by rw [hf1]
    have e2of : u2.offset_in_part = t1.offset_in_part := by rw [hf2]
    have e2sk : u2.skipped_page = t1.skipped_page := by rw [hf2]
    have e2od : u2.output_data = t1.output_data := by rw [hf2]
    have e2pa : u2.parts = t1.parts := by rw [hf2]
    rw [← hp2]
    refine ⟨?_, ?_, ?_, ?_⟩
    · rw [hoff, e2of, e1of]
    · rw [hsk, e2sk, e1sk]
    · rw [hout, e2od, e1od]
    · rw [hpa, e2pa, e1pa]
  · intro d rest t1 u2 u3 a1 arrays2 defaults2 nf2 count3 t4 a4 c4
      hch hin h1 h2 h3 h4
    have hpg : process t = pageStep t := by
      simp only [process, hch, hin, Bool.not_true, Bool.and_false,
        Bool.false_eq_true, if_false]
    have hp2 := hproc
    rw [hpg] at hp2
    simp only [pageStep, h1, h2, h3, h4, if_true] at hp2
    simp only [Except.ok.injEq] at hp2
    have hf1 := stepTopK_inr_frame { t with read_columns := [] } t1 a1 h1
    have hf2 := readCols_inr_frame t1.prewhere_columns true t1 a1 [] false
      u2 arrays2 defaults2 nf2 h2
    have hf3 := stepPrewhereFilter_inr_frame u2 arrays2 defaults2 u3 count3 h3
    obtain ⟨hsk, -, hout, hpa, -, idx, filt, arr, -, hma, hoff, -⟩ :=
      bloomRuntimeFilter_skip_exact u3 arrays2 count3 t4 a4 c4 h4
    have e1of : t1.offset_in_part = t.offset_in_part := by rw [hf1]
    have e1sk : t1.skipped_page = t.skipped_page := by rw [hf1]
    have e1od : t1.output_data = t.output_data := by rw [hf1]
    have e1pa : t1.parts = t.parts := by rw [hf1]
    have e2of : u2.offset_in_part = t1.offset_in_part := by rw [hf2]
    have e2sk : u2.skipped_page = t1.skipped_page := by rw [hf2]
    have e2od : u2.output_data = t1.output_data := by rw [hf2]
    have e2pa : u2.parts = t1.parts := by rw [hf2]
    have e3of : u3.offset_in_part = u2.offset_in_part := by rw [hf3]
    have e3sk : u3.skipped_page = u2.skipped_page := by rw [hf3]
    have e3od : u3.output_data = u2.output_data := by rw [hf3]
    have e3pa : u3.parts = u2.parts := by rw [hf3]
    refine ⟨idx, arr, hma, ?_, ?_, ?_, ?_⟩
    · rw [← hp2, hoff, e3of, e2of, e1of]
    · rw [← hp2, hsk, e3sk, e2sk, e1sk]
    · rw [← hp2, hout, e3od, e2od, e1od]
    · rw [← hp2, hpa, e3pa, e2pa, e1pa]

/-- Witness for C3 at the spec's Scenario A: a 4-row page `[5, 12, 20, 3]`
under `price > 10` emits 2 rows yet `offset_in_part` advances by exactly 4. -/
theorem offset_advances_by_page_rows_witness :
    ∃ u, process w3State = .ok u ∧ u.offset_in_part = 4 := by
  obtain ⟨hmono, hemit, -, -, -⟩ :=
    offset_advances_by_page_rows w3State _ (fun _ => rfl) rfl
  refine ⟨_, rfl, ?_⟩
  have hx := hemit [] [] _ _ _ _ _ _ _ _ _ _ _ _ _ _ _
    rfl rfl rfl rfl rfl rfl rfl
  exact hx.trans rfl

end NativeDeser
